import Mathlib

/-
Shallow embedding of the plugin registry of the Uranium repository
(src/UM/PluginRegistry.py) for checking the specification claims.

The registry is a stateful object; we model its instance fields as a `State`
record and each method as a function `Env → State → State × result`.  All
filesystem, zip, module-import and signature-check effects are deterministic
per process run, so they are supplied by an `Env` record of oracles; ghost
fields on `State` record the observable effects (files written, signature
checks performed, plugin objects registered, descriptor files read, saves).

Python dictionaries are modelled as insertion-ordered association lists and
Python `list` operations map to `List` operations (`remove` -> erase of the
first occurrence, `append` -> `++ [x]`, membership -> `contains`).
-/

set_option autoImplicit false

namespace UM

/-- Modelled from the spec: `UM/Version.py` is not among the sources under
verification; the spec (sections 4.3 and 6) describes a version as a dotted
`major.minor` string whose components are compared numerically. -/
structure Version where
  major : Nat
  minor : Nat
deriving DecidableEq, Repr

/-- Split a character list on a separator character (used for parsing
dotted version strings). -/
def splitOnChar (c : Char) : List Char → List (List Char)
  | [] => [[]]
  | x :: xs =>
    let r := splitOnChar c xs
    if x == c then [] :: r
    else
      match r with
      | [] => [[x]]
      | h :: t => (x :: h) :: t

/-- Numeric value of a list of decimal digits, `none` when empty or
non-numeric (the source's `Version` falls back to 0 in that case). -/
def charsToNat? (l : List Char) : Option Nat :=
  if l.isEmpty then none
  else if l.all (fun c => c.isDigit) then
    some (l.foldl (fun n c => n * 10 + (c.toNat - 48)) 0)
  else none

/-- Modelled from the spec: parse a dotted version string into its major and
minor components, missing or non-numeric components defaulting to 0. -/
def Version.ofString (s : String) : Version :=
  let parts := splitOnChar '.' s.toList
  { major := (charsToNat? (parts.getD 0 [])).getD 0,
    minor := (charsToNat? (parts.getD 1 [])).getD 0 }

/-- Values stored in plugin metadata dictionaries: JSON strings, JSON
objects, JSON arrays, and the in-memory `Version` lists produced by
metadata normalization (`_parsePluginInfo` line 658).  JSON numbers and
booleans are not used by any metadata key the registry reads. -/
inductive PyVal where
  | str : String → PyVal
  | versions : List Version → PyVal
  | dict : List (String × PyVal) → PyVal
  | list : List PyVal → PyVal

/-- Equality test on metadata values (Python `==` on dict entries). -/
def PyVal.beq : PyVal → PyVal → Bool
  | .str a, .str b => a == b
  | .versions a, .versions b => a == b
  | .dict [], .dict [] => true
  | .dict ((k1, v1) :: r1), .dict ((k2, v2) :: r2) =>
    k1 == k2 && PyVal.beq v1 v2 && PyVal.beq (.dict r1) (.dict r2)
  | .list [], .list [] => true
  | .list (x :: xs), .list (y :: ys) =>
    PyVal.beq x y && PyVal.beq (.list xs) (.list ys)
  | _, _ => false

/-- A Python dictionary with string keys, as an insertion-ordered
association list. -/
abbrev Dict := List (String × PyVal)

/-- Python `k in d`. -/
def alistContains {α : Type} (d : List (String × α)) (k : String) : Bool :=
  d.any (fun kv => kv.1 == k)

/-- Python `d.get(k)` / `d[k]`. -/
def alistGet {α : Type} (d : List (String × α)) (k : String) : Option α :=
  (d.find? (fun kv => kv.1 == k)).map (fun kv => kv.2)

/-- Python `d[k] = v`: replace in place, else append at the end. -/
def alistSet {α : Type} : List (String × α) → String → α → List (String × α)
  | [], k, v => [(k, v)]
  | kv :: rest, k, v =>
    if kv.1 == k then (k, v) :: rest else kv :: alistSet rest k v

/-- Python `del d[k]` / `d.pop(k, None)`. -/
def alistDel {α : Type} (d : List (String × α)) (k : String) : List (String × α) :=
  d.filter (fun kv => kv.1 != k)

/-- Python `d.update(e)` (PluginRegistry line 719). -/
def dictUpdate (d e : Dict) : Dict :=
  e.foldl (fun acc kv => alistSet acc kv.1 kv.2) d

/-- `_subsetInDict` (lines 728-734): every key of `subset` exists in
`dictionary`, and non-empty subset values match the dictionary value. -/
def subsetInDict (dictionary subset : Dict) : Bool :=
  subset.all (fun kv =>
    alistContains dictionary kv.1 &&
    (PyVal.beq kv.2 (.dict []) ||
      PyVal.beq ((alistGet dictionary kv.1).getD (.dict [])) kv.2))

/-- Entry stored in `_plugins_to_install` (line 288). -/
structure InstallInfo where
  plugin_id : String
  filename : String
deriving DecidableEq, Repr

/-- Content of the persisted `plugins.json` file (lines 159-162). -/
structure PersistedData where
  disabled : List String
  to_install : List (String × InstallInfo)
  to_remove : List String
deriving DecidableEq, Repr

/-- The `QVariantMap` results of `installPlugin` / `uninstallPlugin`. -/
structure OpResult where
  status : String
  id : String
  message : String
deriving DecidableEq, Repr

/-- Fate of the lock-and-write sequence inside `_savePluginData`. -/
inductive SaveOutcome where
  | ok
  | ioError
deriving DecidableEq, Repr

/-- `InvalidMetaDataError` from UM/PluginError.py. -/
inductive PluginErr where
  | invalidMetaData : String → PluginErr
deriving DecidableEq, Repr

/-- Exceptions escaping `loadPlugin`: `PluginNotFoundError` (raised at line
387) and the `KeyError` the interpreter would raise at line 402 if the
metadata entry were missing. -/
inductive LoadErr where
  | pluginNotFound : String → LoadErr
  | keyError : String → LoadErr
deriving DecidableEq, Repr

/-- One entry of the mapping returned by a plugin's `register` function:
either a single plugin object or a list of them (lines 420-439). -/
inductive RegVal where
  | single
  | group : Nat → RegVal
deriving DecidableEq, Repr

/-- Deterministic per-process oracles for all external effects consumed by
the registry: the filesystem walks, module imports, the signature checker,
the plugin modules' own functions, the i18n catalog and the preference
store.  One fixed `Env` corresponds to one process run with an unchanging
disk and environment. -/
structure Env where
  /-- Result of `_locatePlugin` over all configured plugin locations
  (lines 570-574 and 676-680): the location containing the plugin. -/
  locate : String → Option String
  /-- Whether `imp.find_module` succeeds (line 580). -/
  findModuleOk : String → Bool
  /-- Whether `TrustBasics.removeCached` succeeds (line 589). -/
  removeCachedOk : String → Bool
  /-- Result of `self._trust_checker.signedFolderCheck(path)` (line 594). -/
  signedFolderCheck : String → Bool
  /-- Whether `imp.load_module` succeeds (line 601). -/
  loadModuleOk : String → Bool
  /-- Result of the install-prefix path comparison loop inside
  `isBundledPlugin` (lines 310-332), which is pure filesystem geometry. -/
  isBundledCompute : String → Bool
  /-- Result of the plugin module's own `getMetaData()` (line 688);
  `none` models the `AttributeError` / `TypeError` cases (lines 703-708). -/
  moduleMetaData : String → Option Dict
  /-- Content of the plugin's `plugin.json`: `none` when the file is
  missing or unreadable (lines 693-701), `some none` when it is not valid
  JSON (line 637), `some (some v)` for parsed JSON. -/
  pluginJsonText : String → Option (Option PyVal)
  /-- Result of `plugin.register(application)` (line 416): `none` when it
  raises, otherwise the returned type-to-objects mapping. -/
  registerResult : String → Option (List (String × RegVal))
  /-- The i18n catalog lookup used on `name` / `description` (lines 660-666). -/
  translate : String → String → String
  /-- `self._application.getApplicationName()`. -/
  appName : String
  /-- Content of the persisted configuration file at startup, `none` when
  absent or unreadable (lines 104-115). -/
  configFile : Option PersistedData
  /-- Legacy `general/disabled_plugins` preference ids (lines 119-121),
  already split and stripped. -/
  prefDisabled : List String
  /-- Legacy `general/plugins_to_remove` preference ids (lines 126-127). -/
  prefToRemove : List String
  /-- Fate of each lock-and-write inside `_savePluginData`. -/
  saveOutcome : SaveOutcome
  /-- Result of `_findInstalledPlugins` over the plugin locations
  (lines 537-559), a filesystem walk. -/
  installedPluginIds : List String

/-- The instance fields of `PluginRegistry` (lines 47-82) plus ghost
fields recording externally observable effects. -/
structure State where
  /-- `self._api_version`, from `application.getAPIVersion()`. -/
  api_version : Version
  all_plugins : List String := []
  metadata : List (String × Dict) := []
  plugins_installed : List String := []
  disabled_plugins : List String := []
  outdated_plugins : List String := []
  plugins_to_install : List (String × InstallInfo) := []
  plugins_to_remove : List String := []
  /-- Keys of `self._plugins` (the loaded modules themselves are opaque). -/
  plugins : List String := []
  /-- Keys of `self._found_plugins`. -/
  found_plugins : List String := []
  checked_plugin_ids : List String := []
  distrusted_plugin_ids : List String := []
  check_if_trusted : Bool := false
  /-- Whether `self._trust_checker` is set (line 87). -/
  has_trust_checker : Bool := false
  bundled_plugin_cache : List (String × Bool) := []
  -- ghost fields: observable effects
  /-- Number of `signedFolderCheck` invocations performed. -/
  sig_checks : Nat := 0
  /-- Number of times a `plugin.json` descriptor file was opened. -/
  descriptor_reads : Nat := 0
  /-- Number of `_addPluginObject` calls performed. -/
  registrations : Nat := 0
  /-- Files copied into the plugin cache directory by `installPlugin`. -/
  cache_writes : List String := []
  /-- Plugin directories deleted by `_removePlugin`. -/
  removals : List String := []
  /-- Plugin archives extracted by `_installPlugin`. -/
  installs : List String := []
  /-- Number of successful `_savePluginData` writes. -/
  saves : Nat := 0
  /-- Last successfully persisted content of `plugins.json`. -/
  persisted : Option PersistedData := none
  /-- Number of exceptions logged by `Logger.logException`. -/
  logged_errors : Nat := 0

/-- The three persisted sets, as serialized by `_savePluginData`
(lines 159-162). -/
def persistSnapshot (s : State) : PersistedData :=
  { disabled := s.disabled_plugins,
    to_install := s.plugins_to_install,
    to_remove := s.plugins_to_remove }

/-- The body of `_savePluginData`'s `try` block (lines 157-163): acquire
the lock and write the file, either of which can fail. -/
def savePluginDataBody (outcome : SaveOutcome) (s : State) : Except String State :=
  match outcome with
  | .ok => .ok { s with persisted := some (persistSnapshot s), saves := s.saves + 1 }
  | .ioError => .error "Unable to save the plugin data."

/-- `_savePluginData` (lines 153-167): any failure of the body is caught,
logged via `Logger.logException`, and the method returns normally. -/
def savePluginData (outcome : SaveOutcome) (s : State) : State :=
  match savePluginDataBody outcome s with
  | .ok s' => s'
  | .error _ => { s with logged_errors := s.logged_errors + 1 }

/-- `isBundledPlugin` (lines 307-334): memoized per id; the underlying
path-geometry computation over the plugin locations is supplied by the
environment. -/
def isBundledPlugin (env : Env) (s : State) (plugin_id : String) : State × Bool :=
  match alistGet s.bundled_plugin_cache plugin_id with
  | some b => (s, b)
  | none =>
    let is_bundled := env.isBundledCompute plugin_id
    ({ s with bundled_plugin_cache := alistSet s.bundled_plugin_cache plugin_id is_bundled },
     is_bundled)

/-- The tail of `_findPlugin` (lines 600-609): `imp.load_module` and the
`_found_plugins` cache update. -/
def loadModulePart (env : Env) (s : State) (plugin_id : String) : State × Bool :=
  if !env.loadModuleOk plugin_id then (s, false)
  else ({ s with found_plugins := s.found_plugins ++ [plugin_id] }, true)

/-- `_findPlugin` (lines 561-609).  Returns whether a module was found (the
module itself is opaque); mirrors the Python short-circuit evaluation of
the trust-gate condition at line 586: `isBundledPlugin` is only evaluated
(and its cache only written) when the first two conjuncts hold; the
signature check only runs when `self._trust_checker` is set, and its
failure (or a `removeCached` failure, or an unset trust checker) appends
the id to the distrusted list and yields no module. -/
def findPlugin (env : Env) (s : State) (plugin_id : String) : State × Bool :=
  if s.found_plugins.contains plugin_id then (s, true)
  else
    match env.locate plugin_id with
    | none => (s, false)
    | some _location =>
      if !env.findModuleOk plugin_id then (s, false)
      else if s.check_if_trusted && !(s.checked_plugin_ids.contains plugin_id) then
        match isBundledPlugin env s plugin_id with
        | (s1, true) => loadModulePart env s1 plugin_id
        | (s1, false) =>
          if !env.removeCachedOk plugin_id then
            ({ s1 with distrusted_plugin_ids := s1.distrusted_plugin_ids ++ [plugin_id] }, false)
          else if s1.has_trust_checker then
            if env.signedFolderCheck plugin_id then
              loadModulePart env
                { s1 with sig_checks := s1.sig_checks + 1,
                          checked_plugin_ids := s1.checked_plugin_ids ++ [plugin_id] }
                plugin_id
            else
              ({ s1 with sig_checks := s1.sig_checks + 1,
                         distrusted_plugin_ids := s1.distrusted_plugin_ids ++ [plugin_id] },
               false)
          else
            ({ s1 with distrusted_plugin_ids := s1.distrusted_plugin_ids ++ [plugin_id] }, false)
      else loadModulePart env s plugin_id

/-- A version value for each element of a declared `supported_sdk_versions`
list or `api` field (`Version(supported_version)` at lines 654-657). -/
def Version.ofPyVal : PyVal → Version
  | .str s => Version.ofString s
  | _ => { major := 0, minor := 0 }

/-- The supported-sdk-version normalization of `_parsePluginInfo`
(lines 650-658): the versions from `supported_sdk_versions`, followed by
the one from `api`.  A non-list `supported_sdk_versions` value makes the
Python `for` loop raise a `TypeError`, which `_populateMetaData` converts
into `InvalidMetaDataError`; that is returned as `none` here. -/
def normalizeSdkVersions (plugin : Dict) : Option (List Version) :=
  let fromSdk : Option (List Version) :=
    match alistGet plugin "supported_sdk_versions" with
    | none => some []
    | some (.list elems) => some (elems.map Version.ofPyVal)
    | some _ => none
  match fromSdk with
  | none => none
  | some vs =>
    match alistGet plugin "api" with
    | none => some vs
    | some v => some (vs ++ [Version.ofPyVal v])

/-- `_parsePluginInfo` (lines 634-666).  `file_json` is the parse result of
the descriptor text (`none` = `JSONDecodeError`).  A non-object JSON value
leads, in the Python code, to a `TypeError` when the plugin block is
indexed; `_populateMetaData` turns that into `InvalidMetaDataError` as
well, so it is mapped to the same error here. -/
def parsePluginInfo (env : Env) (plugin_id : String) (file_json : Option PyVal)
    (meta_data : Dict) : Except PluginErr Dict :=
  match file_json with
  | none => .error (.invalidMetaData plugin_id)
  | some parsed =>
    match parsed with
    | .dict plugin =>
      if !alistContains plugin "version" then .error (.invalidMetaData plugin_id)
      else if !alistContains plugin "api" && !alistContains plugin "supported_sdk_versions" then
        .error (.invalidMetaData plugin_id)
      else
        match normalizeSdkVersions plugin with
        | none => .error (.invalidMetaData plugin_id)
        | some all_versions =>
          let plugin : Dict := alistSet plugin "supported_sdk_versions" (.versions all_versions)
          let plugin : Dict :=
            match alistGet plugin "i18n-catalog" with
            | some (.str catalog) =>
              let plugin : Dict :=
                match alistGet plugin "name" with
                | some (.str n) => alistSet plugin "name" (.str (env.translate catalog n))
                | _ => plugin
              match alistGet plugin "description" with
              | some (.str d) => alistSet plugin "description" (.str (env.translate catalog d))
              | _ => plugin
            | _ => plugin
          .ok (alistSet meta_data "plugin" (.dict plugin))
    | _ => .error (.invalidMetaData plugin_id)

/-- `_populateMetaData` (lines 668-723): find the module, locate the plugin
folder, call the module's `getMetaData`, read and parse `plugin.json`,
stamp `id` and `location`, apply the application-name override block, and
cache the result in `self._metadata`.  Returns `Bool` as the Python method
does; `InvalidMetaDataError` is the `Except.error` case. -/
def populateMetaData (env : Env) (s : State) (plugin_id : String) :
    State × Except PluginErr Bool :=
  let pf := findPlugin env s plugin_id
  let s := pf.1
  if !pf.2 then (s, .ok false)
  else
    match env.locate plugin_id with
    | none => (s, .ok false)
    | some location0 =>
      let location := location0 ++ "/" ++ plugin_id
      match env.moduleMetaData plugin_id with
      | none => (s, .error (.invalidMetaData plugin_id))
      | some meta_data0 =>
        -- the descriptor file is opened here (line 691)
        let s := { s with descriptor_reads := s.descriptor_reads + 1 }
        match env.pluginJsonText plugin_id with
        | none => (s, .error (.invalidMetaData plugin_id))
        | some file_json =>
          match parsePluginInfo env plugin_id file_json meta_data0 with
          | .error e => (s, .error e)
          | .ok meta_data1 =>
            if meta_data1.isEmpty then (s, .error (.invalidMetaData plugin_id))
            else
              let meta_data2 := alistSet meta_data1 "id" (.str plugin_id)
              let meta_data3 := alistSet meta_data2 "location" (.str location)
              let meta_data4 :=
                if alistContains meta_data3 env.appName then
                  let over :=
                    match alistGet meta_data3 env.appName with
                    | some (.dict fields) => fields
                    | _ => []
                  alistDel (dictUpdate meta_data3 over) env.appName
                else meta_data3
              ({ s with metadata := alistSet s.metadata plugin_id meta_data4 }, .ok true)

/-- `getMetaData` (lines 255-263): populate on a cache miss; an
`InvalidMetaDataError` or a `False` result yields the empty dictionary. -/
def getMetaData (env : Env) (s : State) (plugin_id : String) : State × Dict :=
  if alistContains s.metadata plugin_id then
    (s, (alistGet s.metadata plugin_id).getD [])
  else
    match populateMetaData env s plugin_id with
    | (s', .error _) => (s', [])
    | (s', .ok false) => (s', [])
    | (s', .ok true) => (s', (alistGet s'.metadata plugin_id).getD [])

/-- `enablePlugin` (lines 207-210). -/
def enablePlugin (env : Env) (s : State) (plugin_id : String) : State :=
  let s :=
    if s.disabled_plugins.contains plugin_id then
      { s with disabled_plugins := s.disabled_plugins.erase plugin_id }
    else s
  savePluginData env.saveOutcome s

/-- `disablePlugin` (lines 201-204). -/
def disablePlugin (env : Env) (s : State) (plugin_id : String) : State :=
  let s :=
    if !(s.disabled_plugins.contains plugin_id) then
      { s with disabled_plugins := s.disabled_plugins ++ [plugin_id] }
    else s
  savePluginData env.saveOutcome s

/-- `_addPluginObject` (lines 748-754): stores the plugin object and hands
it to the type's registration callback (callback failures are caught
internally); recorded as one registration. -/
def addPluginObject (s : State) : State :=
  { s with registrations := s.registrations + 1 }

/-- Register `n` nested plugin objects (the list-valued case of the loop at
lines 421-429). -/
def addPluginObjects (s : State) : Nat → State
  | 0 => s
  | n + 1 => addPluginObjects (addPluginObject s) n

/-- The registration loop of `loadPlugin` (lines 420-439): one
`_addPluginObject` per returned object. -/
def registerEntries : List (String × RegVal) → State → State
  | [], s => s
  | (_, .single) :: rest, s => registerEntries rest (addPluginObject s)
  | (_, .group n) :: rest, s => registerEntries rest (addPluginObjects s n)

/-- `isPluginApiVersionCompatible` (lines 371-373). -/
def isPluginApiVersionCompatible (api_version plugin_api_version : Version) : Bool :=
  (plugin_api_version.major == api_version.major) &&
    decide (plugin_api_version.minor ≤ api_version.minor)

/-- The supported-version accumulation loop of `loadPlugin`
(lines 403-407), with its early `break`. -/
def isPluginSupportedLoop (api_version : Version) : List Version → Bool → Bool
  | [], acc => acc
  | v :: rest, acc =>
    let acc := acc || isPluginApiVersionCompatible api_version v
    if acc then acc else isPluginSupportedLoop api_version rest acc

/-- The `supported_sdk_versions` extraction of `loadPlugin` (line 402):
`self._metadata[plugin_id].get("plugin", {}).get("supported_sdk_versions",
[Version("0")])`.  After `_parsePluginInfo` the stored value is always a
`versions` list; any other stored value would make the Python loop iterate
something that is not a version list, which no claim exercises. -/
def sdkVersionsOf (md : Dict) : List Version :=
  match alistGet md "plugin" with
  | some (.dict pf) =>
    match alistGet pf "supported_sdk_versions" with
    | some (.versions vs) => vs
    | some _ => []
    | none => [Version.ofString "0"]
  | _ => [Version.ofString "0"]

/-- The part of `loadPlugin` after the module was found and the metadata
population step ran (lines 396-446). -/
def loadPluginRest (env : Env) (s : State) (plugin_id : String) :
    State × Except LoadErr Unit :=
  if s.disabled_plugins.contains plugin_id then (s, .ok ())
  else
    match alistGet s.metadata plugin_id with
    | none => (s, .error (.keyError plugin_id))
    | some md =>
      if !isPluginSupportedLoop s.api_version (sdkVersionsOf md) false then
        ({ s with outdated_plugins := s.outdated_plugins ++ [plugin_id] }, .ok ())
      else
        match env.registerResult plugin_id with
        | none => (s, .ok ())
        | some to_register =>
          if to_register.isEmpty then (s, .ok ())
          else
            let s := registerEntries to_register s
            let s := { s with plugins := s.plugins ++ [plugin_id] }
            let s := enablePlugin env s plugin_id
            (s, .ok ())

/-- `loadPlugin` (lines 376-446): no-op when already loaded; raises
`PluginNotFoundError` when no module is found; populates metadata when it
is not cached, aborting quietly on `InvalidMetaDataError`. -/
def loadPlugin (env : Env) (s : State) (plugin_id : String) :
    State × Except LoadErr Unit :=
  if s.plugins.contains plugin_id then (s, .ok ())
  else
    let pf := findPlugin env s plugin_id
    let s := pf.1
    if !pf.2 then (s, .error (.pluginNotFound plugin_id))
    else
      if !alistContains s.metadata plugin_id then
        match populateMetaData env s plugin_id with
        | (s', .error _) => (s', .ok ())
        | (s', .ok _) => loadPluginRest env s' plugin_id
      else loadPluginRest env s plugin_id

/-- The per-plugin loop body of `loadPlugins` (lines 344-367): fetch the
metadata, store it, match the optional filter, then load; a
`PluginNotFoundError` is swallowed, any other escaping exception would
abort the whole pass (returned as `some err`). -/
def loadPluginsLoop (env : Env) (filter : Option Dict) :
    List String → State → State × Option LoadErr
  | [], s => (s, none)
  | plugin_id :: rest, s =>
    let gm := getMetaData env s plugin_id
    let s1 := { gm.1 with metadata := alistSet gm.1.metadata plugin_id gm.2 }
    if (match filter with
        | none => true
        | some f => subsetInDict gm.2 f) then
      let lp := loadPlugin env s1 plugin_id
      match lp.2 with
      | .ok _ =>
        loadPluginsLoop env filter rest
          { lp.1 with all_plugins := lp.1.all_plugins ++ [plugin_id],
                      plugins_installed := lp.1.plugins_installed ++ [plugin_id] }
      | .error (.pluginNotFound _) => loadPluginsLoop env filter rest lp.1
      | .error e => (lp.1, some e)
    else loadPluginsLoop env filter rest s1

/-- `loadPlugins` (lines 335-368). -/
def loadPlugins (env : Env) (s : State) (filter : Option Dict) :
    State × Option LoadErr :=
  loadPluginsLoop env filter env.installedPluginIds s

/-- The loop of `getAllMetaData` (lines 225-235), threading the registry
state through the `getMetaData` calls. -/
def getAllMetaDataLoop (env : Env) (data_filter : Dict) (active_only : Bool) :
    List String → State → State × List Dict
  | [], s => (s, [])
  | plugin_id :: rest, s =>
    if active_only &&
        (s.disabled_plugins.contains plugin_id || s.outdated_plugins.contains plugin_id) then
      getAllMetaDataLoop env data_filter active_only rest s
    else
      let gm := getMetaData env s plugin_id
      let r := getAllMetaDataLoop env data_filter active_only rest gm.1
      if subsetInDict gm.2 data_filter then (r.1, gm.2 :: r.2) else r

/-- `getAllMetaData` (lines 225-235). -/
def getAllMetaData (env : Env) (s : State) (data_filter : Dict) (active_only : Bool) :
    State × List Dict :=
  getAllMetaDataLoop env data_filter active_only s.all_plugins s

/-- Python `str.strip("/")`: remove leading and trailing `/` characters
(line 526). -/
def stripSlashes (s : String) : String :=
  String.mk (((s.toList.dropWhile (fun c => c == '/')).reverse.dropWhile
    (fun c => c == '/')).reverse)

/-- Last character is `/`, i.e. Python `filename.endswith("/")`
(line 525). -/
def endsWithSlash (s : String) : Bool :=
  s.toList.getLast? == some '/'

/-- The entry loop of `_getPluginIdFromFile` (lines 524-527): the first
entry whose name ends in a slash, stripped of surrounding slashes. -/
def firstDirEntry : List String → Option String
  | [] => none
  | e :: rest => if endsWithSlash e then some (stripSlashes e) else firstDirEntry rest

/-- `_getPluginIdFromFile` (lines 520-534).  An archive is `none` when the
zip is corrupt or the file is missing (`BadZipFile` / `FileNotFoundError`,
both caught and turned into `None`), otherwise the ordered list of entry
names in the zip. -/
def getPluginIdFromFile (archive : Option (List String)) : Option String :=
  match archive with
  | none => none
  | some entries => firstDirEntry entries

/-- Definition following the words of the claim, not the source: the name
of the archive's first top-level directory entry (an entry of the form
`name/` with no other slash), `none` for a corrupt or missing archive. -/
def specIdentify (archive : Option (List String)) : Option String :=
  match archive with
  | none => none
  | some entries =>
    (entries.find? (fun e =>
        endsWithSlash e && (String.mk e.toList.dropLast).toList.all (fun c => c != '/'))).map
      (fun e => String.mk e.toList.dropLast)

/-- The fixed cache file name `plugin_id + ".plugin"` used by
`installPlugin` (line 282); the cache directory prefix is constant and
omitted. -/
def cacheFileName (plugin_id : String) : String := plugin_id ++ ".plugin"

/-- `installPlugin` (lines 266-298): identify the id from the archive
(`None` on failure), cancel a pending removal, copy the archive into the
plugin cache (a ghost `cache_writes` event), and schedule installation.
The `QUrl(...).toLocalFile()` normalization of the path argument is the
identity here: archives are already given as local content. -/
def installPlugin (env : Env) (s : State) (archive : Option (List String)) :
    State × Option OpResult :=
  match getPluginIdFromFile archive with
  | none => (s, none)
  | some plugin_id =>
    let s :=
      if s.plugins_to_remove.contains plugin_id then
        savePluginData env.saveOutcome
          { s with plugins_to_remove := s.plugins_to_remove.erase plugin_id }
      else s
    let s := { s with cache_writes := s.cache_writes ++ [cacheFileName plugin_id] }
    let install_info : InstallInfo :=
      { plugin_id := plugin_id, filename := cacheFileName plugin_id }
    let s := savePluginData env.saveOutcome
      { s with plugins_to_install := alistSet s.plugins_to_install plugin_id install_info }
    (s, some { status := "ok", id := "",
               message := "The plugin has been installed.\nPlease re-start the application to activate the plugin." })

/-- `uninstallPlugin` (lines 449-474): an error result when the id is not
in the installed list; otherwise cancel a pending install, or schedule
removal and drop the in-memory module. -/
def uninstallPlugin (env : Env) (s : State) (plugin_id : String) : State × OpResult :=
  if !(s.plugins_installed.contains plugin_id) then
    (s, { status := "error", id := plugin_id, message := "" })
  else
    let s :=
      if alistContains s.plugins_to_install plugin_id then
        savePluginData env.saveOutcome
          { s with plugins_to_install := alistDel s.plugins_to_install plugin_id }
      else
        let s :=
          if !(s.plugins_to_remove.contains plugin_id) then
            { s with plugins_to_remove := s.plugins_to_remove ++ [plugin_id] }
          else s
        let s := savePluginData env.saveOutcome s
        { s with plugins := s.plugins.erase plugin_id,
                 plugins_installed := s.plugins_installed.erase plugin_id }
    (s, { status := "ok", id := plugin_id,
          message := "The plugin has been removed.\nPlease restart " ++ env.appName ++ " to finish uninstall." })

/-- Python list merge used when folding legacy preference ids into the
loaded lists (lines 122-124 and 128-130): append each id not yet present. -/
def mergeMissing (base add : List String) : List String :=
  add.foldl (fun acc pid => if acc.contains pid then acc else acc ++ [pid]) base

/-- The startup pass `initializeBeforePluginsAreLoaded` (lines 94-144;
the name is shortened because of a lexical restriction of this
development): load the persisted sets (keeping the constructor defaults
when the file is absent or unreadable), merge the legacy preference state,
materialize and clear pending removals, persist, materialize and clear
pending installs, persist.  Directory deletions and archive extractions
performed by `_removePlugin` / `_installPlugin` are recorded as ghost
`removals` / `installs` events; `_installPlugin` also drops the bundled
cache entry and re-enables the plugin (lines 482-483 and 502-503). -/
def initBeforePluginsAreLoaded (env : Env) (s : State) : State :=
  let s :=
    match env.configFile with
    | some data =>
      { s with disabled_plugins := data.disabled,
               plugins_to_install := data.to_install,
               plugins_to_remove := data.to_remove }
    | none => s
  let s := { s with disabled_plugins := mergeMissing s.disabled_plugins env.prefDisabled }
  let s := { s with plugins_to_remove := mergeMissing s.plugins_to_remove env.prefToRemove }
  let s := { s with removals := s.removals ++ s.plugins_to_remove, plugins_to_remove := [] }
  let s := savePluginData env.saveOutcome s
  let installed_ids := s.plugins_to_install.map (fun kv => kv.1)
  let s :=
    { s with installs := s.installs ++ installed_ids,
             bundled_plugin_cache :=
               installed_ids.foldl (fun c pid => alistDel c pid) s.bundled_plugin_cache,
             disabled_plugins :=
               installed_ids.foldl (fun d pid => d.erase pid) s.disabled_plugins,
             plugins_to_install := [] }
  savePluginData env.saveOutcome s

/-- `setCheckIfTrusted` (lines 84-89). -/
def setCheckIfTrusted (s : State) (check : Bool) : State :=
  let s := { s with check_if_trusted := check }
  if check then { s with has_trust_checker := true } else s

/-- Registry states reachable in one process run: a freshly constructed
registry (all lists empty, lines 56-82) possibly taken through the startup
pass, followed by any sequence of the modelled public operations. -/
inductive Reachable (env : Env) : State → Prop where
  | fresh (v : Version) : Reachable env { api_version := v }
  | startup (s : State) : Reachable env s → Reachable env (initBeforePluginsAreLoaded env s)
  | install (s : State) (archive : Option (List String)) :
      Reachable env s → Reachable env (installPlugin env s archive).1
  | uninstall (s : State) (plugin_id : String) :
      Reachable env s → Reachable env (uninstallPlugin env s plugin_id).1
  | enable (s : State) (plugin_id : String) :
      Reachable env s → Reachable env (enablePlugin env s plugin_id)
  | disable (s : State) (plugin_id : String) :
      Reachable env s → Reachable env (disablePlugin env s plugin_id)
  | load (s : State) (plugin_id : String) :
      Reachable env s → Reachable env (loadPlugin env s plugin_id).1
  | loadAll (s : State) (filter : Option Dict) :
      Reachable env s → Reachable env (loadPlugins env s filter).1
  | getMeta (s : State) (plugin_id : String) :
      Reachable env s → Reachable env (getMetaData env s plugin_id).1
  | getAllMeta (s : State) (data_filter : Dict) (active_only : Bool) :
      Reachable env s → Reachable env (getAllMetaData env s data_filter active_only).1
  | setTrust (s : State) (check : Bool) :
      Reachable env s → Reachable env (setCheckIfTrusted s check)

/-! ### Association-list lemmas -/

theorem alistGet_set_self {α : Type} (d : List (String × α)) (k : String) (v : α) :
    alistGet (alistSet d k v) k = some v := by
  induction d with
  | nil => simp [alistGet, alistSet]
  | cons kv rest ih =>
    by_cases h : kv.1 == k
    · simp [alistSet, alistGet, h]
    · simpa [alistSet, alistGet, h] using ih

theorem alistContains_set_self {α : Type} (d : List (String × α)) (k : String) (v : α) :
    alistContains (alistSet d k v) k = true := by
  induction d with
  | nil => simp [alistContains, alistSet]
  | cons kv rest ih =>
    by_cases h : kv.1 == k
    · simp [alistSet, alistContains, h]
    · simpa [alistSet, alistContains, h] using ih

theorem alistContains_del_self {α : Type} (d : List (String × α)) (k : String) :
    alistContains (alistDel d k) k = false := by
  induction d with
  | nil => rfl
  | cons kv rest ih =>
    by_cases hk : kv.1 = k
    · have h1 : (kv.1 != k) = false := by simp [hk]
      simpa [alistDel, List.filter_cons, h1] using ih
    · have h1 : (kv.1 != k) = true := by simp [hk]
      have h2 : (kv.1 == k) = false := by simp [hk]
      simp only [alistDel, List.filter_cons, h1, if_true]
      simp only [alistContains, List.any_cons, h2, Bool.false_or]
      exact ih

theorem alistContains_set_of_ne {α : Type} (d : List (String × α)) (k k' : String)
    (v : α) (h : k' ≠ k) :
    alistContains (alistSet d k v) k' = alistContains d k' := by
  have hne : (k == k') = false := beq_eq_false_iff_ne.mpr (Ne.symm h)
  induction d with
  | nil => simp [alistContains, alistSet, hne]
  | cons kv rest ih =>
    by_cases hk : (kv.1 == k) = true
    · have hkk : kv.1 = k := by simpa using hk
      simp only [alistSet, hk, if_true]
      simp only [alistContains, List.any_cons, hne, hkk, Bool.false_or]
    · simp only [alistSet, hk, Bool.false_eq_true, if_false]
      simp only [alistContains, List.any_cons] at ih ⊢
      rw [ih]

/-! ### Frame lemmas: which state fields each operation can modify -/

theorem isBundledPlugin_frame (env : Env) (s : State) (plugin_id : String) :
    ∃ bc, (isBundledPlugin env s plugin_id).1 = { s with bundled_plugin_cache := bc } := by
  unfold isBundledPlugin
  match h : alistGet s.bundled_plugin_cache plugin_id with
  | some b => exact ⟨s.bundled_plugin_cache, rfl⟩
  | none => exact ⟨_, rfl⟩

theorem loadModulePart_frame (env : Env) (s : State) (plugin_id : String) :
    ∃ fp, (loadModulePart env s plugin_id).1 = { s with found_plugins := fp } := by
  unfold loadModulePart
  split
  · exact ⟨_, rfl⟩
  · exact ⟨_, rfl⟩

theorem savePluginData_frame (outcome : SaveOutcome) (s : State) :
    ∃ p sv le, savePluginData outcome s =
      { s with persisted := p, saves := sv, logged_errors := le } := by
  cases outcome <;>
    exact ⟨_, _, _, rfl⟩

theorem findPlugin_frame (env : Env) (s : State) (plugin_id : String) :
    ∃ bc n ck dt fp, (findPlugin env s plugin_id).1 =
      { s with bundled_plugin_cache := bc, sig_checks := n, checked_plugin_ids := ck,
               distrusted_plugin_ids := dt, found_plugins := fp } := by
  unfold findPlugin
  split
  · exact ⟨_, _, _, _, _, rfl⟩
  · split
    · exact ⟨_, _, _, _, _, rfl⟩
    · split
      · exact ⟨_, _, _, _, _, rfl⟩
      · split
        · split
          · rename_i s1 heq
            obtain ⟨bc, hbc⟩ := isBundledPlugin_frame env s plugin_id
            rw [heq] at hbc
            have hbc' : s1 = { s with bundled_plugin_cache := bc } := hbc
            obtain ⟨fp, hfp⟩ := loadModulePart_frame env s1 plugin_id
            rw [hfp, hbc']
            exact ⟨_, _, _, _, _, rfl⟩
          · rename_i s1 heq
            obtain ⟨bc, hbc⟩ := isBundledPlugin_frame env s plugin_id
            rw [heq] at hbc
            have hbc' : s1 = { s with bundled_plugin_cache := bc } := hbc
            split
            · rw [hbc']
              exact ⟨_, _, _, _, _, rfl⟩
            · split
              · split
                · obtain ⟨fp, hfp⟩ := loadModulePart_frame env
                    { s1 with sig_checks := s1.sig_checks + 1,
                              checked_plugin_ids := s1.checked_plugin_ids ++ [plugin_id] }
                    plugin_id
                  rw [hfp, hbc']
                  exact ⟨_, _, _, _, _, rfl⟩
                · rw [hbc']
                  exact ⟨_, _, _, _, _, rfl⟩
              · rw [hbc']
                exact ⟨_, _, _, _, _, rfl⟩
        · obtain ⟨fp, hfp⟩ := loadModulePart_frame env s plugin_id
          rw [hfp]
          exact ⟨_, _, _, _, _, rfl⟩

theorem populateMetaData_frame (env : Env) (s : State) (plugin_id : String) :
    ∃ bc n ck dt fp dr md, (populateMetaData env s plugin_id).1 =
      { s with bundled_plugin_cache := bc, sig_checks := n, checked_plugin_ids := ck,
               distrusted_plugin_ids := dt, found_plugins := fp,
               descriptor_reads := dr, metadata := md } := by
  obtain ⟨bc, n, ck, dt, fp, hf⟩ := findPlugin_frame env s plugin_id
  simp only [populateMetaData]
  rw [hf]
  split
  · exact ⟨_, _, _, _, _, _, _, rfl⟩
  · split
    · exact ⟨_, _, _, _, _, _, _, rfl⟩
    · split
      · exact ⟨_, _, _, _, _, _, _, rfl⟩
      · split
        · exact ⟨_, _, _, _, _, _, _, rfl⟩
        · split
          · exact ⟨_, _, _, _, _, _, _, rfl⟩
          · split
            · exact ⟨_, _, _, _, _, _, _, rfl⟩
            · exact ⟨_, _, _, _, _, _, _, rfl⟩

theorem getMetaData_frame (env : Env) (s : State) (plugin_id : String) :
    ∃ bc n ck dt fp dr md, (getMetaData env s plugin_id).1 =
      { s with bundled_plugin_cache := bc, sig_checks := n, checked_plugin_ids := ck,
               distrusted_plugin_ids := dt, found_plugins := fp,
               descriptor_reads := dr, metadata := md } := by
  unfold getMetaData
  split
  · exact ⟨_, _, _, _, _, _, _, rfl⟩
  · obtain ⟨bc, n, ck, dt, fp, dr, md, hp⟩ := populateMetaData_frame env s plugin_id
    split
    all_goals rename_i s' r heq
    all_goals rw [heq] at hp
    all_goals exact ⟨_, _, _, _, _, _, _, hp⟩

theorem enablePlugin_frame (env : Env) (s : State) (plugin_id : String) :
    ∃ dp p sv le, enablePlugin env s plugin_id =
      { s with disabled_plugins := dp, persisted := p, saves := sv, logged_errors := le } := by
  unfold enablePlugin
  split
  · obtain ⟨p, sv, le, hs⟩ := savePluginData_frame env.saveOutcome
      { s with disabled_plugins := s.disabled_plugins.erase plugin_id }
    rw [hs]
    exact ⟨_, _, _, _, rfl⟩
  · obtain ⟨p, sv, le, hs⟩ := savePluginData_frame env.saveOutcome s
    rw [hs]
    exact ⟨_, _, _, _, rfl⟩

theorem disablePlugin_frame (env : Env) (s : State) (plugin_id : String) :
    ∃ dp p sv le, disablePlugin env s plugin_id =
      { s with disabled_plugins := dp, persisted := p, saves := sv, logged_errors := le } := by
  unfold disablePlugin
  split
  · obtain ⟨p, sv, le, hs⟩ := savePluginData_frame env.saveOutcome
      { s with disabled_plugins := s.disabled_plugins ++ [plugin_id] }
    rw [hs]
    exact ⟨_, _, _, _, rfl⟩
  · obtain ⟨p, sv, le, hs⟩ := savePluginData_frame env.saveOutcome s
    rw [hs]
    exact ⟨_, _, _, _, rfl⟩

theorem addPluginObjects_frame (n : Nat) (s : State) :
    ∃ r, addPluginObjects s n = { s with registrations := r } := by
  induction n generalizing s with
  | zero => exact ⟨_, rfl⟩
  | succ m ih =>
    obtain ⟨r, hr⟩ := ih (addPluginObject s)
    exact ⟨r, by rw [addPluginObjects, hr]; rfl⟩

theorem registerEntries_frame (l : List (String × RegVal)) (s : State) :
    ∃ r, registerEntries l s = { s with registrations := r } := by
  induction l generalizing s with
  | nil => exact ⟨_, rfl⟩
  | cons kv rest ih =>
    match kv with
    | (t, .single) =>
      obtain ⟨r, hr⟩ := ih (addPluginObject s)
      exact ⟨r, by rw [registerEntries, hr]; rfl⟩
    | (t, .group n) =>
      obtain ⟨r0, hr0⟩ := addPluginObjects_frame n s
      obtain ⟨r, hr⟩ := ih (addPluginObjects s n)
      exact ⟨r, by rw [registerEntries, hr, hr0]⟩

theorem loadPluginRest_frame (env : Env) (s : State) (plugin_id : String) :
    ∃ od r pl dp p sv le, (loadPluginRest env s plugin_id).1 =
      { s with outdated_plugins := od, registrations := r, plugins := pl,
               disabled_plugins := dp, persisted := p, saves := sv, logged_errors := le } := by
  simp only [loadPluginRest]
  split
  · exact ⟨_, _, _, _, _, _, _, rfl⟩
  · split
    · exact ⟨_, _, _, _, _, _, _, rfl⟩
    · split
      · exact ⟨_, _, _, _, _, _, _, rfl⟩
      · split
        · exact ⟨_, _, _, _, _, _, _, rfl⟩
        · rename_i to_register heq
          split
          · exact ⟨_, _, _, _, _, _, _, rfl⟩
          · obtain ⟨r, hr⟩ := registerEntries_frame to_register s
            obtain ⟨dp, p, sv, le, he⟩ := enablePlugin_frame env
              { registerEntries to_register s with
                plugins := (registerEntries to_register s).plugins ++ [plugin_id] } plugin_id
            rw [he, hr]
            exact ⟨_, _, _, _, _, _, _, rfl⟩

theorem loadPlugin_frame (env : Env) (s : State) (plugin_id : String) :
    ∃ bc n ck dt fp dr md od r pl dp p sv le, (loadPlugin env s plugin_id).1 =
      { s with bundled_plugin_cache := bc, sig_checks := n, checked_plugin_ids := ck,
               distrusted_plugin_ids := dt, found_plugins := fp, descriptor_reads := dr,
               metadata := md, outdated_plugins := od, registrations := r, plugins := pl,
               disabled_plugins := dp, persisted := p, saves := sv, logged_errors := le } := by
  simp only [loadPlugin]
  split
  · exact ⟨_, _, _, _, _, _, _, _, _, _, _, _, _, _, rfl⟩
  · obtain ⟨bc, n, ck, dt, fp, hf⟩ := findPlugin_frame env s plugin_id
    rw [hf]
    split
    · exact ⟨_, _, _, _, _, _, _, _, _, _, _, _, _, _, rfl⟩
    · split
      · obtain ⟨bc2, n2, ck2, dt2, fp2, dr2, md2, hp⟩ := populateMetaData_frame env
          { s with bundled_plugin_cache := bc, sig_checks := n, checked_plugin_ids := ck,
                   distrusted_plugin_ids := dt, found_plugins := fp } plugin_id
        split
        · rename_i s' e heq
          rw [heq] at hp
          exact ⟨_, _, _, _, _, _, _, _, _, _, _, _, _, _, hp⟩
        · rename_i s' b heq
          rw [heq] at hp
          have hp' : s' = _ := hp
          obtain ⟨od, r, pl, dp, p, sv, le, hrest⟩ := loadPluginRest_frame env s' plugin_id
          rw [hrest, hp']
          exact ⟨_, _, _, _, _, _, _, _, _, _, _, _, _, _, rfl⟩
      · obtain ⟨od, r, pl, dp, p, sv, le, hrest⟩ := loadPluginRest_frame env
          { s with bundled_plugin_cache := bc, sig_checks := n, checked_plugin_ids := ck,
                   distrusted_plugin_ids := dt, found_plugins := fp } plugin_id
        rw [hrest]
        exact ⟨_, _, _, _, _, _, _, _, _, _, _, _, _, _, rfl⟩

theorem getAllMetaDataLoop_frame (env : Env) (df : Dict) (ao : Bool)
    (l : List String) (s : State) :
    ∃ bc n ck dt fp dr md, (getAllMetaDataLoop env df ao l s).1 =
      { s with bundled_plugin_cache := bc, sig_checks := n, checked_plugin_ids := ck,
               distrusted_plugin_ids := dt, found_plugins := fp,
               descriptor_reads := dr, metadata := md } := by
  induction l generalizing s with
  | nil => exact ⟨_, _, _, _, _, _, _, rfl⟩
  | cons pid rest ih =>
    simp only [getAllMetaDataLoop]
    split
    · exact ih s
    · obtain ⟨bc, n, ck, dt, fp, dr, md, hg⟩ := getMetaData_frame env s pid
      obtain ⟨bc2, n2, ck2, dt2, fp2, dr2, md2, hr⟩ := ih (getMetaData env s pid).1
      rw [hg] at hr
      split
      · rw [hg]
        exact ⟨_, _, _, _, _, _, _, hr⟩
      · rw [hg]
        exact ⟨_, _, _, _, _, _, _, hr⟩

theorem loadPluginsLoop_frame (env : Env) (flt : Option Dict) (l : List String) (s : State) :
    ∃ bc n ck dt fp dr md od r pl dp p sv le ap pi,
      (loadPluginsLoop env flt l s).1 =
      { s with bundled_plugin_cache := bc, sig_checks := n, checked_plugin_ids := ck,
               distrusted_plugin_ids := dt, found_plugins := fp, descriptor_reads := dr,
               metadata := md, outdated_plugins := od, registrations := r, plugins := pl,
               disabled_plugins := dp, persisted := p, saves := sv, logged_errors := le,
               all_plugins := ap, plugins_installed := pi } := by
  induction l generalizing s with
  | nil => exact ⟨_, _, _, _, _, _, _, _, _, _, _, _, _, _, _, _, rfl⟩
  | cons pid rest ih =>
    simp only [loadPluginsLoop]
    obtain ⟨bc, n, ck, dt, fp, dr, md, hg⟩ := getMetaData_frame env s pid
    obtain ⟨bc2, n2, ck2, dt2, fp2, dr2, md2, od2, r2, pl2, dp2, p2, sv2, le2, hl⟩ :=
      loadPlugin_frame env
        { (getMetaData env s pid).1 with
          metadata := alistSet (getMetaData env s pid).1.metadata pid (getMetaData env s pid).2 }
        pid
    split
    · split
      · obtain ⟨xbc, xn, xck, xdt, xfp, xdr, xmd, xod, xr, xpl, xdp, xp, xsv, xle, xap, xpi, hih⟩ :=
          ih { (loadPlugin env
                  { (getMetaData env s pid).1 with
                    metadata := alistSet (getMetaData env s pid).1.metadata pid
                      (getMetaData env s pid).2 } pid).1 with
               all_plugins := (loadPlugin env
                  { (getMetaData env s pid).1 with
                    metadata := alistSet (getMetaData env s pid).1.metadata pid
                      (getMetaData env s pid).2 } pid).1.all_plugins ++ [pid],
               plugins_installed := (loadPlugin env
                  { (getMetaData env s pid).1 with
                    metadata := alistSet (getMetaData env s pid).1.metadata pid
                      (getMetaData env s pid).2 } pid).1.plugins_installed ++ [pid] }
        rw [hih, hl, hg]
        exact ⟨_, _, _, _, _, _, _, _, _, _, _, _, _, _, _, _, rfl⟩
      · obtain ⟨xbc, xn, xck, xdt, xfp, xdr, xmd, xod, xr, xpl, xdp, xp, xsv, xle, xap, xpi, hih⟩ :=
          ih (loadPlugin env
                { (getMetaData env s pid).1 with
                  metadata := alistSet (getMetaData env s pid).1.metadata pid
                    (getMetaData env s pid).2 } pid).1
        rw [hih, hl, hg]
        exact ⟨_, _, _, _, _, _, _, _, _, _, _, _, _, _, _, _, rfl⟩
      · rw [hl, hg]
        exact ⟨_, _, _, _, _, _, _, _, _, _, _, _, _, _, _, _, rfl⟩
    · obtain ⟨xbc, xn, xck, xdt, xfp, xdr, xmd, xod, xr, xpl, xdp, xp, xsv, xle, xap, xpi, hih⟩ :=
        ih { (getMetaData env s pid).1 with
             metadata := alistSet (getMetaData env s pid).1.metadata pid (getMetaData env s pid).2 }
      rw [hih, hg]
      exact ⟨_, _, _, _, _, _, _, _, _, _, _, _, _, _, _, _, rfl⟩

/-! ### Per-field projection helpers -/

theorem savePluginData_to_install (o : SaveOutcome) (s : State) :
    (savePluginData o s).plugins_to_install = s.plugins_to_install := by
  obtain ⟨p, sv, le, h⟩ := savePluginData_frame o s
  rw [h]

theorem savePluginData_to_remove (o : SaveOutcome) (s : State) :
    (savePluginData o s).plugins_to_remove = s.plugins_to_remove := by
  obtain ⟨p, sv, le, h⟩ := savePluginData_frame o s
  rw [h]

theorem getMetaData_to_install (env : Env) (s : State) (pid : String) :
    (getMetaData env s pid).1.plugins_to_install = s.plugins_to_install := by
  obtain ⟨bc, n, ck, dt, fp, dr, md, h⟩ := getMetaData_frame env s pid
  rw [h]

theorem getMetaData_to_remove (env : Env) (s : State) (pid : String) :
    (getMetaData env s pid).1.plugins_to_remove = s.plugins_to_remove := by
  obtain ⟨bc, n, ck, dt, fp, dr, md, h⟩ := getMetaData_frame env s pid
  rw [h]

theorem getMetaData_outdated (env : Env) (s : State) (pid : String) :
    (getMetaData env s pid).1.outdated_plugins = s.outdated_plugins := by
  obtain ⟨bc, n, ck, dt, fp, dr, md, h⟩ := getMetaData_frame env s pid
  rw [h]

theorem getMetaData_disabled (env : Env) (s : State) (pid : String) :
    (getMetaData env s pid).1.disabled_plugins = s.disabled_plugins := by
  obtain ⟨bc, n, ck, dt, fp, dr, md, h⟩ := getMetaData_frame env s pid
  rw [h]

theorem loadPlugin_to_install (env : Env) (s : State) (pid : String) :
    (loadPlugin env s pid).1.plugins_to_install = s.plugins_to_install := by
  obtain ⟨bc, n, ck, dt, fp, dr, md, od, r, pl, dp, p, sv, le, h⟩ := loadPlugin_frame env s pid
  rw [h]

theorem loadPlugin_to_remove (env : Env) (s : State) (pid : String) :
    (loadPlugin env s pid).1.plugins_to_remove = s.plugins_to_remove := by
  obtain ⟨bc, n, ck, dt, fp, dr, md, od, r, pl, dp, p, sv, le, h⟩ := loadPlugin_frame env s pid
  rw [h]

theorem loadPluginsLoop_to_install (env : Env) (flt : Option Dict) (l : List String) (s : State) :
    (loadPluginsLoop env flt l s).1.plugins_to_install = s.plugins_to_install := by
  obtain ⟨bc, n, ck, dt, fp, dr, md, od, r, pl, dp, p, sv, le, ap, pi, h⟩ :=
    loadPluginsLoop_frame env flt l s
  rw [h]

theorem loadPluginsLoop_to_remove (env : Env) (flt : Option Dict) (l : List String) (s : State) :
    (loadPluginsLoop env flt l s).1.plugins_to_remove = s.plugins_to_remove := by
  obtain ⟨bc, n, ck, dt, fp, dr, md, od, r, pl, dp, p, sv, le, ap, pi, h⟩ :=
    loadPluginsLoop_frame env flt l s
  rw [h]

theorem getAllMetaDataLoop_to_install (env : Env) (df : Dict) (ao : Bool)
    (l : List String) (s : State) :
    (getAllMetaDataLoop env df ao l s).1.plugins_to_install = s.plugins_to_install := by
  obtain ⟨bc, n, ck, dt, fp, dr, md, h⟩ := getAllMetaDataLoop_frame env df ao l s
  rw [h]

theorem getAllMetaDataLoop_to_remove (env : Env) (df : Dict) (ao : Bool)
    (l : List String) (s : State) :
    (getAllMetaDataLoop env df ao l s).1.plugins_to_remove = s.plugins_to_remove := by
  obtain ⟨bc, n, ck, dt, fp, dr, md, h⟩ := getAllMetaDataLoop_frame env df ao l s
  rw [h]

theorem enablePlugin_to_install (env : Env) (s : State) (pid : String) :
    (enablePlugin env s pid).plugins_to_install = s.plugins_to_install := by
  obtain ⟨dp, p, sv, le, h⟩ := enablePlugin_frame env s pid
  rw [h]

theorem enablePlugin_to_remove (env : Env) (s : State) (pid : String) :
    (enablePlugin env s pid).plugins_to_remove = s.plugins_to_remove := by
  obtain ⟨dp, p, sv, le, h⟩ := enablePlugin_frame env s pid
  rw [h]

theorem disablePlugin_to_install (env : Env) (s : State) (pid : String) :
    (disablePlugin env s pid).plugins_to_install = s.plugins_to_install := by
  obtain ⟨dp, p, sv, le, h⟩ := disablePlugin_frame env s pid
  rw [h]

theorem disablePlugin_to_remove (env : Env) (s : State) (pid : String) :
    (disablePlugin env s pid).plugins_to_remove = s.plugins_to_remove := by
  obtain ⟨dp, p, sv, le, h⟩ := disablePlugin_frame env s pid
  rw [h]

/-! ### Behavior of install / uninstall / startup on the lifecycle sets -/

theorem alistContains_del_imp {α : Type} (d : List (String × α)) (k k' : String)
    (h : alistContains (alistDel d k) k' = true) : alistContains d k' = true := by
  induction d with
  | nil => exact h
  | cons kv rest ih =>
    by_cases hk : (kv.1 != k) = true
    · simp only [alistDel, List.filter_cons, hk, if_true] at h
      simp only [alistContains, List.any_cons] at h ⊢
      rcases Bool.or_eq_true_iff.mp h with h1 | h2
      · exact Bool.or_eq_true_iff.mpr (Or.inl h1)
      · exact Bool.or_eq_true_iff.mpr (Or.inr (ih h2))
    · simp only [alistDel, List.filter_cons, hk, Bool.false_eq_true, if_false] at h
      simp only [alistContains, List.any_cons]
      exact Bool.or_eq_true_iff.mpr (Or.inr (ih h))

theorem installPlugin_fields (env : Env) (s : State) (archive : Option (List String))
    (pid : String) (h : getPluginIdFromFile archive = some pid) :
    (installPlugin env s archive).1.plugins_to_remove = s.plugins_to_remove.erase pid ∧
    (installPlugin env s archive).1.plugins_to_install =
      alistSet s.plugins_to_install pid { plugin_id := pid, filename := cacheFileName pid } ∧
    (installPlugin env s archive).1.cache_writes = s.cache_writes ++ [cacheFileName pid] ∧
    (installPlugin env s archive).1.plugins_installed = s.plugins_installed ∧
    (installPlugin env s archive).1.disabled_plugins = s.disabled_plugins ∧
    (installPlugin env s archive).2 ≠ none := by
  simp only [installPlugin, h]
  by_cases hm : s.plugins_to_remove.contains pid = true
  · have hm' : pid ∈ s.plugins_to_remove := by simpa using hm
    cases ho : env.saveOutcome <;>
      simp [hm', ho, savePluginData, savePluginDataBody]
  · have hnm : pid ∉ s.plugins_to_remove := by simpa using hm
    rw [List.erase_of_not_mem hnm]
    cases ho : env.saveOutcome <;>
      simp [hnm, ho, savePluginData, savePluginDataBody]

theorem installPlugin_persisted_ok (env : Env) (s : State) (archive : Option (List String))
    (pid : String) (h : getPluginIdFromFile archive = some pid)
    (ho : env.saveOutcome = SaveOutcome.ok) :
    (installPlugin env s archive).1.persisted =
      some { disabled := s.disabled_plugins,
             to_install := alistSet s.plugins_to_install pid
               { plugin_id := pid, filename := cacheFileName pid },
             to_remove := s.plugins_to_remove.erase pid } := by
  simp only [installPlugin, h]
  by_cases hm : s.plugins_to_remove.contains pid = true
  · have hm' : pid ∈ s.plugins_to_remove := by simpa using hm
    simp [hm', ho, savePluginData, savePluginDataBody, persistSnapshot]
  · have hnm : pid ∉ s.plugins_to_remove := by simpa using hm
    rw [List.erase_of_not_mem hnm]
    simp [hnm, ho, savePluginData, savePluginDataBody, persistSnapshot]

theorem uninstallPlugin_error (env : Env) (s : State) (pid : String)
    (h : s.plugins_installed.contains pid = false) :
    uninstallPlugin env s pid = (s, { status := "error", id := pid, message := "" }) := by
  have h' : pid ∉ s.plugins_installed := by simpa using h
  simp [uninstallPlugin, h']

theorem uninstallPlugin_pending (env : Env) (s : State) (pid : String)
    (hin : s.plugins_installed.contains pid = true)
    (hti : alistContains s.plugins_to_install pid = true) :
    (uninstallPlugin env s pid).1.plugins_to_install = alistDel s.plugins_to_install pid ∧
    (uninstallPlugin env s pid).1.plugins_to_remove = s.plugins_to_remove ∧
    (uninstallPlugin env s pid).1.plugins_installed = s.plugins_installed ∧
    (uninstallPlugin env s pid).1.cache_writes = s.cache_writes ∧
    (uninstallPlugin env s pid).2.status = "ok" ∧
    (env.saveOutcome = SaveOutcome.ok →
      (uninstallPlugin env s pid).1.persisted =
        some { disabled := s.disabled_plugins,
               to_install := alistDel s.plugins_to_install pid,
               to_remove := s.plugins_to_remove }) := by
  simp only [uninstallPlugin, hin]
  cases ho : env.saveOutcome <;>
    simp [hti, ho, savePluginData, savePluginDataBody, persistSnapshot]

theorem uninstallPlugin_scheduled (env : Env) (s : State) (pid : String)
    (hin : s.plugins_installed.contains pid = true)
    (hti : alistContains s.plugins_to_install pid = false) :
    (uninstallPlugin env s pid).1.plugins_to_install = s.plugins_to_install ∧
    (uninstallPlugin env s pid).1.plugins_to_remove =
      (if s.plugins_to_remove.contains pid then s.plugins_to_remove
       else s.plugins_to_remove ++ [pid]) ∧
    (uninstallPlugin env s pid).1.plugins = s.plugins.erase pid ∧
    (uninstallPlugin env s pid).1.plugins_installed = s.plugins_installed.erase pid ∧
    (uninstallPlugin env s pid).2.status = "ok" := by
  simp only [uninstallPlugin, hin]
  by_cases hm : s.plugins_to_remove.contains pid = true
  · have hm' : pid ∈ s.plugins_to_remove := by simpa using hm
    cases ho : env.saveOutcome <;>
      simp [hti, hm, hm', ho, savePluginData, savePluginDataBody]
  · have hnm : pid ∉ s.plugins_to_remove := by simpa using hm
    cases ho : env.saveOutcome <;>
      simp [hti, hm, hnm, ho, savePluginData, savePluginDataBody]

theorem initBefore_lifecycle (env : Env) (s : State) :
    (initBeforePluginsAreLoaded env s).plugins_to_install = [] ∧
    (initBeforePluginsAreLoaded env s).plugins_to_remove = [] := by
  simp only [initBeforePluginsAreLoaded]
  split <;> cases ho : env.saveOutcome <;>
    simp [ho, savePluginData, savePluginDataBody]

/-! ### The pending-install / pending-remove exclusion invariant -/

/-- The invariant of claim C6: the pending-remove list has no duplicates
and no id is pending removal and pending installation at once. -/
def LifecycleInv (s : State) : Prop :=
  s.plugins_to_remove.Nodup ∧
  ∀ pid, pid ∈ s.plugins_to_remove → alistContains s.plugins_to_install pid = false

theorem lifecycleInv_of_fields {s s' : State}
    (hti : s'.plugins_to_install = s.plugins_to_install)
    (htr : s'.plugins_to_remove = s.plugins_to_remove)
    (h : LifecycleInv s) : LifecycleInv s' := by
  unfold LifecycleInv
  rw [hti, htr]
  exact h

theorem installPlugin_inv (env : Env) (s : State) (archive : Option (List String))
    (h : LifecycleInv s) : LifecycleInv (installPlugin env s archive).1 := by
  match harch : getPluginIdFromFile archive with
  | none =>
    have : (installPlugin env s archive).1 = s := by
      simp [installPlugin, harch]
    rw [this]; exact h
  | some pid =>
    obtain ⟨htr, hti, _, _, _, _⟩ := installPlugin_fields env s archive pid harch
    obtain ⟨hnd, hinv⟩ := h
    refine ⟨?_, ?_⟩
    · rw [htr]; exact hnd.erase pid
    · intro pid' hmem
      rw [htr] at hmem
      have hne : pid' ≠ pid ∧ pid' ∈ s.plugins_to_remove :=
        (List.Nodup.mem_erase_iff hnd).mp hmem
      rw [hti, alistContains_set_of_ne _ _ _ _ hne.1]
      exact hinv pid' hne.2

theorem uninstallPlugin_inv (env : Env) (s : State) (pid : String)
    (h : LifecycleInv s) : LifecycleInv (uninstallPlugin env s pid).1 := by
  by_cases hin : s.plugins_installed.contains pid = true
  · by_cases hti : alistContains s.plugins_to_install pid = true
    · obtain ⟨h1, h2, _, _, _, _⟩ := uninstallPlugin_pending env s pid hin hti
      obtain ⟨hnd, hinv⟩ := h
      refine ⟨by rw [h2]; exact hnd, ?_⟩
      intro pid' hmem
      rw [h2] at hmem
      rw [h1]
      by_cases he : alistContains (alistDel s.plugins_to_install pid) pid' = true
      · exact absurd (alistContains_del_imp _ _ _ he) (by simp [hinv pid' hmem])
      · simpa using he
    · have hti' : alistContains s.plugins_to_install pid = false := by simpa using hti
      obtain ⟨h1, h2, _, _, _⟩ := uninstallPlugin_scheduled env s pid hin hti'
      obtain ⟨hnd, hinv⟩ := h
      by_cases hm : s.plugins_to_remove.contains pid = true
      · rw [hm] at h2
        simp only [if_true] at h2
        exact ⟨by rw [h2]; exact hnd, fun pid' hmem => by
          rw [h1]; exact hinv pid' (by rwa [h2] at hmem)⟩
      · have hm' : (s.plugins_to_remove.contains pid) = false := by simpa using hm
        rw [hm'] at h2
        simp only [Bool.false_eq_true, if_false] at h2
        have hnm : pid ∉ s.plugins_to_remove := by simpa using hm
        refine ⟨?_, ?_⟩
        · rw [h2]
          exact List.Nodup.append hnd (List.nodup_singleton pid)
            (by simpa [List.disjoint_singleton] using hnm)
        · intro pid' hmem
          rw [h2] at hmem
          rw [h1]
          rcases List.mem_append.mp hmem with hl | hr
          · exact hinv pid' hl
          · rw [List.mem_singleton.mp hr]
            exact hti'
  · have hin' : s.plugins_installed.contains pid = false := by simpa using hin
    rw [uninstallPlugin_error env s pid hin']
    exact h

theorem reachable_inv (env : Env) (s : State) (h : Reachable env s) : LifecycleInv s := by
  induction h with
  | fresh v => exact ⟨List.nodup_nil, fun pid hmem => absurd hmem (List.not_mem_nil pid)⟩
  | startup s0 _ _ =>
    obtain ⟨h1, h2⟩ := initBefore_lifecycle env s0
    exact ⟨by rw [h2]; exact List.nodup_nil,
           fun pid hmem => absurd (h2 ▸ hmem) (List.not_mem_nil pid)⟩
  | install s0 archive _ ih => exact installPlugin_inv env s0 archive ih
  | uninstall s0 pid _ ih => exact uninstallPlugin_inv env s0 pid ih
  | enable s0 pid _ ih =>
    exact lifecycleInv_of_fields (enablePlugin_to_install env s0 pid)
      (enablePlugin_to_remove env s0 pid) ih
  | disable s0 pid _ ih =>
    exact lifecycleInv_of_fields (disablePlugin_to_install env s0 pid)
      (disablePlugin_to_remove env s0 pid) ih
  | load s0 pid _ ih =>
    exact lifecycleInv_of_fields (loadPlugin_to_install env s0 pid)
      (loadPlugin_to_remove env s0 pid) ih
  | loadAll s0 flt _ ih =>
    exact lifecycleInv_of_fields
      (loadPluginsLoop_to_install env flt env.installedPluginIds s0)
      (loadPluginsLoop_to_remove env flt env.installedPluginIds s0) ih
  | getMeta s0 pid _ ih =>
    exact lifecycleInv_of_fields (getMetaData_to_install env s0 pid)
      (getMetaData_to_remove env s0 pid) ih
  | getAllMeta s0 df ao _ ih =>
    exact lifecycleInv_of_fields
      (getAllMetaDataLoop_to_install env df ao s0.all_plugins s0)
      (getAllMetaDataLoop_to_remove env df ao s0.all_plugins s0) ih
  | setTrust s0 check _ ih =>
    unfold setCheckIfTrusted
    split <;> exact ih

/-! ### Concrete environments and states for witnesses and counterexamples -/

/-- A baseline oracle environment: empty filesystem, trust checks failing,
persistence succeeding. -/
def envBase : Env :=
  { locate := fun _ => none,
    findModuleOk := fun _ => true,
    removeCachedOk := fun _ => true,
    signedFolderCheck := fun _ => false,
    loadModuleOk := fun _ => true,
    isBundledCompute := fun _ => false,
    moduleMetaData := fun _ => none,
    pluginJsonText := fun _ => none,
    registerResult := fun _ => none,
    translate := fun _ t => t,
    appName := "cura",
    configFile := none,
    prefDisabled := [],
    prefToRemove := [],
    saveOutcome := SaveOutcome.ok,
    installedPluginIds := [] }

/-- A freshly constructed registry with host API version 7.2. -/
def state0 : State := { api_version := { major := 7, minor := 2 } }

/-! ### Claim theorems -/

theorem isPluginSupportedLoop_any (api : Version) (vs : List Version) (acc : Bool) :
    isPluginSupportedLoop api vs acc =
      (acc || vs.any (fun v => isPluginApiVersionCompatible api v)) := by
  induction vs generalizing acc with
  | nil => simp [isPluginSupportedLoop]
  | cons v rest ih =>
    simp only [isPluginSupportedLoop, List.any_cons]
    by_cases h : (acc || isPluginApiVersionCompatible api v) = true
    · rw [if_pos h, ← Bool.or_assoc, h]
      rcases Bool.or_eq_true_iff.mp h with h1 | h1 <;> simp [h1]
    · have h' : (acc || isPluginApiVersionCompatible api v) = false := by simpa using h
      rw [if_neg h, ih, ← Bool.or_assoc]

/-- C3: the compatibility predicate holds exactly when the major components
are equal and the plugin's minor component is at most the host's; a plugin
is supported exactly when some version in its declared list satisfies the
predicate (the accumulation loop of `loadPlugin` is a logical OR across
the list); and the spec's scenario `api "7.0"` against host `7.2` is
compatible. -/
theorem claim_C3 :
    (∀ api v, isPluginApiVersionCompatible api v = true ↔
        (v.major = api.major ∧ v.minor ≤ api.minor)) ∧
    (∀ api vs, isPluginSupportedLoop api vs false =
        vs.any (fun v => isPluginApiVersionCompatible api v)) ∧
    isPluginSupportedLoop { major := 7, minor := 2 } [Version.ofString "7.0"] false = true := by
  refine ⟨?_, ?_, ?_⟩
  · intro api v
    simp [isPluginApiVersionCompatible, Bool.and_eq_true, beq_iff_eq, decide_eq_true_eq]
  · intro api vs
    simpa using isPluginSupportedLoop_any api vs false
  · rfl

/-- C4: `loadPlugin` is idempotent — when the id is already registered in
`self._plugins` (which is exactly the state after a first successful call),
a second call returns immediately, leaves the state untouched and performs
no further registration. -/
theorem claim_C4 (env : Env) (s : State) (plugin_id : String)
    (h : s.plugins.contains plugin_id = true) :
    loadPlugin env s plugin_id = (s, Except.ok ()) ∧
    (loadPlugin env s plugin_id).1.registrations = s.registrations := by
  constructor
  · unfold loadPlugin
    rw [if_pos h]
  · unfold loadPlugin
    rw [if_pos h]

/-- A registry state in which plugin `p` is loaded. -/
def stateC4 : State := { api_version := { major := 7, minor := 2 }, plugins := ["p"] }

/-- Witness for C4: a concrete already-loaded plugin. -/
theorem claim_C4_witness :
    stateC4.plugins.contains "p" = true ∧
    loadPlugin envBase stateC4 "p" = (stateC4, Except.ok ()) :=
  ⟨rfl, (claim_C4 envBase stateC4 "p" rfl).1⟩

/-- C10: for an id absent from the in-memory installed list,
`uninstallPlugin` returns the error result and the whole registry state —
in particular the disabled list, the pending-install map, the
pending-remove list and the loaded-modules map — is unchanged, and nothing
is persisted. -/
theorem claim_C10 (env : Env) (s : State) (plugin_id : String)
    (h : s.plugins_installed.contains plugin_id = false) :
    uninstallPlugin env s plugin_id =
      (s, { status := "error", id := plugin_id, message := "" }) :=
  uninstallPlugin_error env s plugin_id h

/-- Witness for C10 at a fresh registry. -/
theorem claim_C10_witness :
    state0.plugins_installed.contains "p" = false ∧
    uninstallPlugin envBase state0 "p" =
      (state0, { status := "error", id := "p", message := "" }) :=
  ⟨rfl, claim_C10 envBase state0 "p" rfl⟩

/-- C7: any failure of the lock-and-write body of `_savePluginData` is
caught; the failure is logged (one more logged exception) and the method
returns an ordinary state to the caller — it never re-raises. -/
theorem claim_C7 (outcome : SaveOutcome) (s : State) (e : String)
    (h : savePluginDataBody outcome s = Except.error e) :
    savePluginData outcome s = { s with logged_errors := s.logged_errors + 1 } := by
  unfold savePluginData
  rw [h]

/-- Witness for C7: the I/O-failure outcome. -/
theorem claim_C7_witness :
    savePluginDataBody SaveOutcome.ioError state0 =
      Except.error "Unable to save the plugin data." ∧
    savePluginData SaveOutcome.ioError state0 =
      { state0 with logged_errors := state0.logged_errors + 1 } :=
  ⟨rfl, claim_C7 SaveOutcome.ioError state0 "Unable to save the plugin data." rfl⟩

/-! ### C8: identifying the plugin id inside an archive -/

theorem dropWhile_no_slash (l : List Char) (h : ∀ c ∈ l, (c == '/') = false) :
    l.dropWhile (fun c => c == '/') = l := by
  cases l with
  | nil => rfl
  | cons c cs =>
    rw [List.dropWhile_cons, if_neg]
    simp [h c (List.mem_cons_self c cs)]

theorem strip_list (l : List Char) (h : ∀ c ∈ l, (c == '/') = false) :
    (((l ++ ['/']).dropWhile (fun c => c == '/')).reverse.dropWhile
      (fun c => c == '/')).reverse = l := by
  cases l with
  | nil => rfl
  | cons c cs =>
    have hc : (c == '/') = false := h c (List.mem_cons_self c cs)
    rw [List.cons_append, List.dropWhile_cons, if_neg (by simp [hc])]
    rw [← List.cons_append, List.reverse_append]
    simp only [List.reverse_cons, List.reverse_nil, List.nil_append, List.singleton_append]
    rw [List.dropWhile_cons, if_pos (by simp)]
    rw [dropWhile_no_slash (cs.reverse ++ [c])]
    · rw [← List.reverse_cons, List.reverse_reverse]
    · intro x hx
      rcases List.mem_append.mp hx with h1 | h2
      · exact h x (List.mem_cons_of_mem c (List.mem_reverse.mp h1))
      · rw [List.mem_singleton.mp h2]
        exact hc

theorem stripSlashes_top (nm : String) (h : nm.toList.all (fun c => c != '/') = true) :
    stripSlashes (nm ++ "/") = nm := by
  have hall : ∀ c ∈ nm.data, (c == '/') = false := by
    intro c hc
    simpa using List.all_eq_true.mp h c hc
  show String.mk ((((nm.data ++ ['/']).dropWhile (fun c => c == '/')).reverse.dropWhile
    (fun c => c == '/')).reverse) = nm
  rw [strip_list nm.data hall]

theorem endsWithSlash_append (nm : String) : endsWithSlash (nm ++ "/") = true := by
  show ((nm.data ++ ['/']).getLast? == some '/') = true
  rw [List.getLast?_concat]
  rfl

/-- Counterexample for C8: for the archive whose only entry is the nested
directory `a/b/`, the code returns `a/b`, which is not the name of any
top-level directory entry (the claim-side reading returns not-found). -/
theorem claim_C8_counterexample :
    ¬ (getPluginIdFromFile (some ["a/b/"]) = specIdentify (some ["a/b/"])) := by
  decide

/-- C8 amended: `_getPluginIdFromFile` returns not-found for a corrupt or
missing archive (never raises), and otherwise returns the first entry whose
name ends in a slash — not necessarily a top-level one — stripped of
surrounding slashes; when the first such entry is a top-level directory
`name/`, the result is exactly `name`, which covers the spec's scenario. -/
theorem claim_C8_amended :
    getPluginIdFromFile none = none ∧
    (∀ entries, getPluginIdFromFile (some entries) =
       (entries.find? (fun e => endsWithSlash e)).map stripSlashes) ∧
    (∀ (nm : String) (rest : List String), nm.toList.all (fun c => c != '/') = true →
       getPluginIdFromFile (some ((nm ++ "/") :: rest)) = some nm) := by
  refine ⟨rfl, ?_, ?_⟩
  · intro entries
    induction entries with
    | nil => rfl
    | cons e rest ih =>
      show firstDirEntry (e :: rest) = _
      rw [firstDirEntry]
      by_cases h : endsWithSlash e = true
      · rw [if_pos h, List.find?_cons_of_pos _ h]
        rfl
      · have h' : endsWithSlash e = false := by simpa using h
        rw [if_neg (by simp [h']), List.find?_cons_of_neg _ (by simp [h'])]
        exact ih
  · intro nm rest h
    show firstDirEntry ((nm ++ "/") :: rest) = some nm
    rw [firstDirEntry, if_pos (endsWithSlash_append nm), stripSlashes_top nm h]

/-- Witness for C8 (the spec's scenario): an archive whose first entry is
the top-level directory `myplugin/`. -/
theorem claim_C8_amended_witness :
    ("myplugin".toList.all (fun c => c != '/') = true) ∧
    getPluginIdFromFile (some ["myplugin/"]) = some "myplugin" := by
  refine ⟨by decide, ?_⟩
  have := (claim_C8_amended).2.2 "myplugin" [] (by decide)
  simpa using this

/-! ### C6: pending install and pending removal exclude each other -/

/-- C6: in every reachable registry state, no id is simultaneously in the
pending-remove list and the pending-install map; and a successful install
request leaves the id scheduled for install and not scheduled for removal
(`installPlugin` cancels any pending removal of the same id). -/
theorem claim_C6 (env : Env) (s : State) (h : Reachable env s) :
    (∀ pid, pid ∈ s.plugins_to_remove → alistContains s.plugins_to_install pid = false) ∧
    (∀ archive pid, getPluginIdFromFile archive = some pid →
       ((installPlugin env s archive).1.plugins_to_remove.contains pid = false ∧
        alistContains (installPlugin env s archive).1.plugins_to_install pid = true)) := by
  obtain ⟨hnd, hinv⟩ := reachable_inv env s h
  refine ⟨hinv, ?_⟩
  intro archive pid harch
  obtain ⟨htr, hti, _, _, _, _⟩ := installPlugin_fields env s archive pid harch
  constructor
  · rw [htr]
    by_cases hc : (s.plugins_to_remove.erase pid).contains pid = true
    · exact absurd (by simpa using hc : pid ∈ s.plugins_to_remove.erase pid)
        (fun hmem => ((List.Nodup.mem_erase_iff hnd).mp hmem).1 rfl)
    · simpa using hc
  · rw [hti]
    exact alistContains_set_self _ _ _

/-- The registry state right after the startup pass on a fresh registry. -/
def sInit : State := initBeforePluginsAreLoaded envBase state0

/-- Witness for C6: a concrete reachable state and install request. -/
theorem claim_C6_witness :
    getPluginIdFromFile (some ["myplugin/"]) = some "myplugin" ∧
    ((installPlugin envBase sInit (some ["myplugin/"])).1.plugins_to_remove.contains
        "myplugin" = false ∧
     alistContains (installPlugin envBase sInit (some ["myplugin/"])).1.plugins_to_install
        "myplugin" = true) :=
  ⟨rfl, (claim_C6 envBase sInit
      (Reachable.startup state0 (Reachable.fresh { major := 7, minor := 2 }))).2
    (some ["myplugin/"]) "myplugin" rfl⟩

/-! ### C1: install immediately followed by uninstall -/

/-- Counterexample for C1: on a fresh registry, `installPlugin` for the
archive `myplugin/` followed immediately by `uninstallPlugin("myplugin")`
leaves the archive copy in the plugin cache and leaves `myplugin` in the
persisted `to_install` map (because `uninstallPlugin` bails out with an
error for an id that is not in the in-memory installed list). -/
theorem claim_C1_counterexample :
    ¬ ((uninstallPlugin envBase
          (installPlugin envBase state0 (some ["myplugin/"])).1 "myplugin").1.cache_writes
          = [] ∧
       (uninstallPlugin envBase
          (installPlugin envBase state0 (some ["myplugin/"])).1 "myplugin").1.persisted.map
          (fun p => alistContains p.to_install "myplugin") = some false ∧
       (uninstallPlugin envBase
          (installPlugin envBase state0 (some ["myplugin/"])).1 "myplugin").1.persisted.map
          (fun p => p.to_remove.contains "myplugin") = some false) := by
  decide

/-- C1 amended: `installPlugin` always writes the archive copy into the
plugin cache.  When the id is not in the in-memory installed list, the
immediate `uninstallPlugin` returns an error and the id stays in the
(persisted) `to_install` map.  When the id is in the installed list, the
immediate `uninstallPlugin` cancels the pending install, leaving no entry
for the id in the persisted `to_install` map or `to_remove` list — but the
cache copy has still been written. -/
theorem claim_C1_amended (env : Env) (s : State) (archive : Option (List String))
    (pid : String) (harch : getPluginIdFromFile archive = some pid)
    (ho : env.saveOutcome = SaveOutcome.ok)
    (hnd : s.plugins_to_remove.Nodup) :
    (installPlugin env s archive).1.cache_writes = s.cache_writes ++ [cacheFileName pid] ∧
    (s.plugins_installed.contains pid = false →
      (uninstallPlugin env (installPlugin env s archive).1 pid).2.status = "error" ∧
      alistContains
        (uninstallPlugin env (installPlugin env s archive).1 pid).1.plugins_to_install pid
        = true ∧
      (uninstallPlugin env (installPlugin env s archive).1 pid).1.persisted.map
        (fun p => alistContains p.to_install pid) = some true) ∧
    (s.plugins_installed.contains pid = true →
      alistContains
        (uninstallPlugin env (installPlugin env s archive).1 pid).1.plugins_to_install pid
        = false ∧
      (uninstallPlugin env (installPlugin env s archive).1 pid).1.plugins_to_remove.contains
        pid = false ∧
      (uninstallPlugin env (installPlugin env s archive).1 pid).1.persisted.map
        (fun p => alistContains p.to_install pid) = some false ∧
      (uninstallPlugin env (installPlugin env s archive).1 pid).1.cache_writes =
        s.cache_writes ++ [cacheFileName pid]) := by
  obtain ⟨htr, hti, hcw, hpi, hdi, _⟩ := installPlugin_fields env s archive pid harch
  have hper := installPlugin_persisted_ok env s archive pid harch ho
  refine ⟨hcw, ?_, ?_⟩
  · intro hnin
    have hnin1 : (installPlugin env s archive).1.plugins_installed.contains pid = false := by
      rw [hpi]; exact hnin
    rw [uninstallPlugin_error env _ pid hnin1]
    refine ⟨rfl, ?_, ?_⟩
    · rw [hti]
      exact alistContains_set_self _ _ _
    · rw [hper]
      simp [alistContains_set_self]
  · intro hin
    have hin1 : (installPlugin env s archive).1.plugins_installed.contains pid = true := by
      rw [hpi]; exact hin
    have hti1 : alistContains (installPlugin env s archive).1.plugins_to_install pid = true := by
      rw [hti]; exact alistContains_set_self _ _ _
    obtain ⟨u1, u2, u3, u4, u5, u6⟩ := uninstallPlugin_pending env _ pid hin1 hti1
    refine ⟨?_, ?_, ?_, ?_⟩
    · rw [u1, hti]
      exact alistContains_del_self _ _
    · rw [u2, htr]
      by_cases hc : (s.plugins_to_remove.erase pid).contains pid = true
      · exact absurd (by simpa using hc : pid ∈ s.plugins_to_remove.erase pid)
          (fun hmem => ((List.Nodup.mem_erase_iff hnd).mp hmem).1 rfl)
      · simpa using hc
    · rw [u6 ho]
      simp [alistContains_del_self]
    · rw [u4, hcw]

/-- Witness for C1 (amended), at a fresh registry and the archive
`myplugin/`: the cache write happens and, the id not being installed,
uninstalling immediately afterwards errors out and leaves the pending
install in place. -/
theorem claim_C1_amended_witness :
    getPluginIdFromFile (some ["myplugin/"]) = some "myplugin" ∧
    envBase.saveOutcome = SaveOutcome.ok ∧
    state0.plugins_to_remove.Nodup ∧
    state0.plugins_installed.contains "myplugin" = false ∧
    ((uninstallPlugin envBase
        (installPlugin envBase state0 (some ["myplugin/"])).1 "myplugin").2.status = "error" ∧
     alistContains (uninstallPlugin envBase
        (installPlugin envBase state0 (some ["myplugin/"])).1
        "myplugin").1.plugins_to_install "myplugin" = true ∧
     (uninstallPlugin envBase
        (installPlugin envBase state0 (some ["myplugin/"])).1 "myplugin").1.persisted.map
        (fun p => alistContains p.to_install "myplugin") = some true) :=
  ⟨rfl, rfl, List.nodup_nil, rfl,
    (claim_C1_amended envBase state0 (some ["myplugin/"]) "myplugin" rfl rfl
      List.nodup_nil).2.1 rfl⟩

/-! ### C2: distrust memoization and repeated signature checks -/

theorem findPlugin_distrust (env : Env) (s : State) (pid : String) (loc : String)
    (h1 : s.check_if_trusted = true)
    (h2 : s.has_trust_checker = true)
    (h3 : s.checked_plugin_ids.contains pid = false)
    (h4 : s.found_plugins.contains pid = false)
    (hloc : env.locate pid = some loc)
    (hfm : env.findModuleOk pid = true)
    (hrc : env.removeCachedOk pid = true)
    (hsc : env.signedFolderCheck pid = false)
    (hbc : alistGet s.bundled_plugin_cache pid ≠ some true)
    (hbe : env.isBundledCompute pid = false) :
    ∃ bc, findPlugin env s pid =
      ({ s with bundled_plugin_cache := bc,
                sig_checks := s.sig_checks + 1,
                distrusted_plugin_ids := s.distrusted_plugin_ids ++ [pid] }, false) ∧
      alistGet bc pid ≠ some true := by
  have hb : ∃ bc, isBundledPlugin env s pid = ({ s with bundled_plugin_cache := bc }, false) ∧
      alistGet bc pid ≠ some true := by
    unfold isBundledPlugin
    cases hg : alistGet s.bundled_plugin_cache pid with
    | none =>
      rw [hbe]
      exact ⟨alistSet s.bundled_plugin_cache pid false, rfl,
        by rw [alistGet_set_self]; simp⟩
    | some b =>
      cases b with
      | true => exact absurd hg hbc
      | false => exact ⟨s.bundled_plugin_cache, rfl, by rw [hg]; simp⟩
  obtain ⟨bc, hb, hbg⟩ := hb
  refine ⟨bc, ?_, hbg⟩
  simp only [findPlugin, h4, hloc, hfm, h1, h3, hb, hrc, h2, hsc, Bool.false_eq_true,
    if_false, Bool.not_true, Bool.not_false, Bool.true_and, Bool.and_self, if_true]

theorem loadPlugin_distrust (env : Env) (s : State) (pid : String) (loc : String)
    (h1 : s.check_if_trusted = true)
    (h2 : s.has_trust_checker = true)
    (h3 : s.checked_plugin_ids.contains pid = false)
    (h4 : s.found_plugins.contains pid = false)
    (h5 : s.plugins.contains pid = false)
    (hloc : env.locate pid = some loc)
    (hfm : env.findModuleOk pid = true)
    (hrc : env.removeCachedOk pid = true)
    (hsc : env.signedFolderCheck pid = false)
    (hbc : alistGet s.bundled_plugin_cache pid ≠ some true)
    (hbe : env.isBundledCompute pid = false) :
    ∃ bc, loadPlugin env s pid =
      ({ s with bundled_plugin_cache := bc,
                sig_checks := s.sig_checks + 1,
                distrusted_plugin_ids := s.distrusted_plugin_ids ++ [pid] },
       Except.error (LoadErr.pluginNotFound pid)) ∧
      alistGet bc pid ≠ some true := by
  obtain ⟨bc, hf, hbg⟩ := findPlugin_distrust env s pid loc h1 h2 h3 h4 hloc hfm hrc hsc hbc hbe
  refine ⟨bc, ?_, hbg⟩
  simp only [loadPlugin, h5, hf, Bool.false_eq_true, if_false, Bool.not_false, if_true]

/-- C2 amended: with trust checking enabled and the signature check
failing for a non-bundled plugin, `loadPlugin` fails with
`PluginNotFoundError` and records the id in the distrusted list; a second
`loadPlugin` call for the same id in the same process also fails — but the
signature check is invoked again (the distrusted list is never consulted),
so after two calls two signature checks have run and the id has been
appended to the distrusted list twice. -/
theorem claim_C2_amended (env : Env) (s : State) (pid : String) (loc : String)
    (h1 : s.check_if_trusted = true)
    (h2 : s.has_trust_checker = true)
    (h3 : s.checked_plugin_ids.contains pid = false)
    (h4 : s.found_plugins.contains pid = false)
    (h5 : s.plugins.contains pid = false)
    (hloc : env.locate pid = some loc)
    (hfm : env.findModuleOk pid = true)
    (hrc : env.removeCachedOk pid = true)
    (hsc : env.signedFolderCheck pid = false)
    (hbc : alistGet s.bundled_plugin_cache pid ≠ some true)
    (hbe : env.isBundledCompute pid = false) :
    (loadPlugin env s pid).2 = Except.error (LoadErr.pluginNotFound pid) ∧
    (loadPlugin env s pid).1.distrusted_plugin_ids.contains pid = true ∧
    (loadPlugin env (loadPlugin env s pid).1 pid).2 =
      Except.error (LoadErr.pluginNotFound pid) ∧
    (loadPlugin env (loadPlugin env s pid).1 pid).1.sig_checks = s.sig_checks + 2 ∧
    (loadPlugin env (loadPlugin env s pid).1 pid).1.distrusted_plugin_ids =
      s.distrusted_plugin_ids ++ [pid] ++ [pid] := by
  obtain ⟨bc, e1, hbg⟩ := loadPlugin_distrust env s pid loc h1 h2 h3 h4 h5 hloc hfm hrc hsc hbc hbe
  obtain ⟨bc2, e2, hbg2⟩ := loadPlugin_distrust env
    { s with bundled_plugin_cache := bc,
             sig_checks := s.sig_checks + 1,
             distrusted_plugin_ids := s.distrusted_plugin_ids ++ [pid] }
    pid loc h1 h2 h3 h4 h5 hloc hfm hrc hsc hbg hbe
  rw [e1]
  refine ⟨rfl, by simp, ?_, ?_, ?_⟩
  · simp only [e2]
  · simp only [e2]
  · simp only [e2]

/-- An environment in which every plugin is locatable but signature checks
fail. -/
def envC2 : Env := { envBase with locate := fun _ => some "plugins" }

/-- A fresh registry with trust checking switched on. -/
def stateC2 : State :=
  { api_version := { major := 7, minor := 2 }, check_if_trusted := true,
    has_trust_checker := true }

/-- Counterexample for C2: after a first failed (distrusting) `loadPlugin`,
a second `loadPlugin` for the same id performs the signature check again —
the counter of signature checks grows from 1 to 2, while the claim implies
it must stay at 1. -/
theorem claim_C2_counterexample :
    ¬ ((loadPlugin envC2 (loadPlugin envC2 stateC2 "p").1 "p").1.sig_checks =
        (loadPlugin envC2 stateC2 "p").1.sig_checks) := by
  decide

/-- Witness for C2 (amended) at a concrete distrusted plugin. -/
theorem claim_C2_amended_witness :
    stateC2.check_if_trusted = true ∧
    envC2.signedFolderCheck "p" = false ∧
    ((loadPlugin envC2 stateC2 "p").2 = Except.error (LoadErr.pluginNotFound "p") ∧
     (loadPlugin envC2 stateC2 "p").1.distrusted_plugin_ids.contains "p" = true ∧
     (loadPlugin envC2 (loadPlugin envC2 stateC2 "p").1 "p").1.sig_checks =
       stateC2.sig_checks + 2) := by
  have h := claim_C2_amended envC2 stateC2 "p" "plugins" rfl rfl rfl rfl rfl rfl rfl rfl rfl
    (by decide) rfl
  exact ⟨rfl, rfl, h.1, h.2.1, h.2.2.2.1⟩

/-! ### C9: metadata caching and idempotence -/

theorem populateMetaData_spec (env : Env) (s : State) (pid : String) :
    (populateMetaData env s pid).2 = Except.ok true ∨
    (populateMetaData env s pid).1.metadata = s.metadata := by
  simp only [populateMetaData]
  obtain ⟨bc, n, ck, dt, fp, hf⟩ := findPlugin_frame env s pid
  rw [hf]
  split
  · right; rfl
  · split
    · right; rfl
    · split
      · right; rfl
      · split
        · right; rfl
        · split
          · right; rfl
          · split
            · right; rfl
            · left; rfl

/-- C9: when the first `getMetaData` call ends with a cached entry for the
id (a successful resolution), a second call returns exactly the same
metadata and the same state — in particular it re-reads no descriptor
file. -/
theorem claim_C9 (env : Env) (s : State) (pid : String)
    (h : alistContains (getMetaData env s pid).1.metadata pid = true) :
    getMetaData env (getMetaData env s pid).1 pid =
      ((getMetaData env s pid).1, (getMetaData env s pid).2) ∧
    (getMetaData env (getMetaData env s pid).1 pid).1.descriptor_reads =
      (getMetaData env s pid).1.descriptor_reads := by
  have key : getMetaData env (getMetaData env s pid).1 pid =
      ((getMetaData env s pid).1, (getMetaData env s pid).2) := by
    by_cases h0 : alistContains s.metadata pid = true
    · have e1 : getMetaData env s pid = (s, (alistGet s.metadata pid).getD []) := by
        unfold getMetaData
        rw [if_pos h0]
      rw [e1]
      unfold getMetaData
      rw [if_pos h0]
    · have h0' : alistContains s.metadata pid = false := by simpa using h0
      rcases hp : populateMetaData env s pid with ⟨s', r⟩
      cases r with
      | error e =>
        have e1 : getMetaData env s pid = (s', []) := by
          unfold getMetaData
          rw [if_neg (by rw [h0']; exact Bool.false_ne_true), hp]
        rcases populateMetaData_spec env s pid with hs | hs
        · rw [hp] at hs
          exact absurd hs (by simp)
        · rw [hp] at hs
          have hs' : s'.metadata = s.metadata := hs
          have hmeta : alistContains s'.metadata pid = true := by
            rw [e1] at h
            exact h
          rw [hs', h0'] at hmeta
          exact absurd hmeta Bool.false_ne_true
      | ok b =>
        cases b with
        | false =>
          have e1 : getMetaData env s pid = (s', []) := by
            unfold getMetaData
            rw [if_neg (by rw [h0']; exact Bool.false_ne_true), hp]
          rcases populateMetaData_spec env s pid with hs | hs
          · rw [hp] at hs
            exact absurd hs (by simp)
          · rw [hp] at hs
            have hs' : s'.metadata = s.metadata := hs
            have hmeta : alistContains s'.metadata pid = true := by
              rw [e1] at h
              exact h
            rw [hs', h0'] at hmeta
            exact absurd hmeta Bool.false_ne_true
        | true =>
          have e1 : getMetaData env s pid =
              (s', (alistGet s'.metadata pid).getD []) := by
            unfold getMetaData
            rw [if_neg (by rw [h0']; exact Bool.false_ne_true), hp]
          have hmeta : alistContains s'.metadata pid = true := by
            rw [e1] at h
            exact h
          rw [e1]
          show getMetaData env s' pid = (s', (alistGet s'.metadata pid).getD [])
          unfold getMetaData
          rw [if_pos hmeta]
  refine ⟨key, ?_⟩
  rw [key]

/-- An environment in which plugin `p` resolves successfully. -/
def envC9 : Env :=
  { envBase with
    locate := fun _ => some "plugins",
    moduleMetaData := fun _ => some [],
    pluginJsonText := fun _ =>
      some (some (.dict [("version", .str "1.0.0"), ("api", .str "7.0")])) }

/-- Witness for C9: a concrete successful metadata resolution. -/
theorem claim_C9_witness :
    alistContains (getMetaData envC9 state0 "p").1.metadata "p" = true ∧
    getMetaData envC9 (getMetaData envC9 state0 "p").1 "p" =
      ((getMetaData envC9 state0 "p").1, (getMetaData envC9 state0 "p").2) :=
  ⟨by decide, (claim_C9 envC9 state0 "p" (by decide)).1⟩

/-! ### C5: descriptors missing the version field -/

theorem alistContains_eq_isSome {α : Type} (d : List (String × α)) (k : String) :
    alistContains d k = (alistGet d k).isSome := by
  induction d with
  | nil => rfl
  | cons kv rest ih =>
    by_cases hk : (kv.1 == k) = true
    · simp [alistContains, alistGet, List.any_cons, List.find?_cons, hk]
    · have hk' : (kv.1 == k) = false := by simpa using hk
      simp only [alistContains, alistGet, List.any_cons, List.find?_cons, hk', cond_false,
        Bool.false_or]
      exact ih

/-- From a state whose cached metadata entry for the id is the empty
dictionary, `loadPlugin` takes the default supported-version list
`[Version("0")]`, which is incompatible with any host API of non-zero
major, and marks the plugin outdated. -/
theorem loadPlugin_outdated_of (env : Env) (t : State) (pid : String)
    (c1 : t.plugins.contains pid = false)
    (c2 : t.found_plugins.contains pid = true)
    (c4 : t.disabled_plugins.contains pid = false)
    (c5 : alistGet t.metadata pid = some [])
    (hmaj : t.api_version.major ≠ 0) :
    loadPlugin env t pid =
      ({ t with outdated_plugins := t.outdated_plugins ++ [pid] }, Except.ok ()) := by
  have e_find2 : findPlugin env t pid = (t, true) := by
    unfold findPlugin
    rw [if_pos c2]
  have c3 : alistContains t.metadata pid = true := by
    rw [alistContains_eq_isSome, c5]
    rfl
  have c6 : isPluginSupportedLoop t.api_version (sdkVersionsOf []) false = false := by
    show isPluginSupportedLoop t.api_version [Version.ofString "0"] false = false
    have hcomp : isPluginApiVersionCompatible t.api_version (Version.ofString "0")
        = false := by
      unfold isPluginApiVersionCompatible
      have h0 : ((Version.ofString "0").major == t.api_version.major) = false :=
        beq_eq_false_iff_ne.mpr (Ne.symm hmaj)
      rw [h0, Bool.false_and]
    simp only [isPluginSupportedLoop, hcomp, Bool.or_false, Bool.false_eq_true, if_false]
  simp only [loadPlugin, c1, Bool.false_eq_true, if_false, e_find2, Bool.not_true,
    Bool.not_false, c3, if_true, loadPluginRest, c4, c5, c6, if_false]

/-- C5: a descriptor missing `version` makes `_parsePluginInfo` raise
`InvalidMetaDataError`; `getMetaData` then yields the empty dictionary and
caches nothing; in the discovery pass (`loadPlugins`), such a plugin falls
back to the default supported version `[Version("0")]`, is marked outdated
(for any host API with non-zero major) and still enters `_all_plugins` —
and an outdated id is skipped entirely by `getAllMetaData` with
`active_only`, so the plugin is absent from that listing. -/
theorem claim_C5 (env : Env) (s : State) (pid : String) (loc : String)
    (pj : List (String × PyVal)) (md0 : Dict)
    (hjson : env.pluginJsonText pid = some (some (.dict pj)))
    (hver : alistContains pj "version" = false)
    (hmeta : alistContains s.metadata pid = false)
    (hloc : env.locate pid = some loc)
    (hfm : env.findModuleOk pid = true)
    (hlm : env.loadModuleOk pid = true)
    (hmm : env.moduleMetaData pid = some md0)
    (htrust : s.check_if_trusted = false)
    (hfound : s.found_plugins.contains pid = false)
    (hdis : s.disabled_plugins.contains pid = false)
    (hpl : s.plugins.contains pid = false)
    (hmaj : s.api_version.major ≠ 0) :
    parsePluginInfo env pid (some (.dict pj)) md0 =
      Except.error (PluginErr.invalidMetaData pid) ∧
    (getMetaData env s pid).2 = [] ∧
    alistContains (getMetaData env s pid).1.metadata pid = false ∧
    (loadPluginsLoop env none [pid] s).1.outdated_plugins = s.outdated_plugins ++ [pid] ∧
    (loadPluginsLoop env none [pid] s).1.all_plugins = s.all_plugins ++ [pid] ∧
    (loadPluginsLoop env none [pid] s).2 = none ∧
    (∀ (l : List String) (t : State), t.outdated_plugins.contains pid = true →
      ∀ df, getAllMetaDataLoop env df true l t =
        getAllMetaDataLoop env df true (l.filter (fun x => x != pid)) t) := by
  have hA : parsePluginInfo env pid (some (.dict pj)) md0 =
      Except.error (PluginErr.invalidMetaData pid) := by
    simp only [parsePluginInfo, hver, Bool.not_false, if_true]
  have e_find : findPlugin env s pid =
      ({ s with found_plugins := s.found_plugins ++ [pid] }, true) := by
    simp only [findPlugin, hfound, hloc, hfm, htrust, Bool.false_eq_true, if_false,
      Bool.not_true, Bool.false_and, loadModulePart, hlm, Bool.not_false, if_true]
  have e_pop : populateMetaData env s pid =
      ({ s with found_plugins := s.found_plugins ++ [pid],
                descriptor_reads := s.descriptor_reads + 1 },
       Except.error (PluginErr.invalidMetaData pid)) := by
    simp only [populateMetaData, e_find, hloc, hmm, hjson, hA, Bool.not_true,
      Bool.false_eq_true, if_false]
  have e_gm : getMetaData env s pid =
      ({ s with found_plugins := s.found_plugins ++ [pid],
                descriptor_reads := s.descriptor_reads + 1 }, []) := by
    unfold getMetaData
    rw [if_neg (by rw [hmeta]; exact Bool.false_ne_true), e_pop]
  have e_lp := loadPlugin_outdated_of env
    { s with found_plugins := s.found_plugins ++ [pid],
             descriptor_reads := s.descriptor_reads + 1,
             metadata := alistSet s.metadata pid [] } pid
    hpl (by simp) hdis (alistGet_set_self s.metadata pid []) hmaj
  have e_loop : loadPluginsLoop env none [pid] s =
      ({ s with found_plugins := s.found_plugins ++ [pid],
                descriptor_reads := s.descriptor_reads + 1,
                metadata := alistSet s.metadata pid [],
                outdated_plugins := s.outdated_plugins ++ [pid],
                all_plugins := s.all_plugins ++ [pid],
                plugins_installed := s.plugins_installed ++ [pid] }, none) := by
    simp only [loadPluginsLoop, e_gm, e_lp, ite_true]
  have hD : ∀ (l : List String) (t : State), t.outdated_plugins.contains pid = true →
      ∀ df, getAllMetaDataLoop env df true l t =
        getAllMetaDataLoop env df true (l.filter (fun x => x != pid)) t := by
    intro l
    induction l with
    | nil =>
      intro t ht df
      rfl
    | cons x rest ih =>
      intro t ht df
      by_cases hx : x = pid
      · subst hx
        have hcond : (true &&
            (t.disabled_plugins.contains x || t.outdated_plugins.contains x)) = true := by
          rw [ht]
          simp
        have hfil : (x :: rest).filter (fun y => y != x) = rest.filter (fun y => y != x) := by
          simp [List.filter_cons]
        rw [hfil]
        show (if (true && (t.disabled_plugins.contains x || t.outdated_plugins.contains x))
            = true then getAllMetaDataLoop env df true rest t
          else
            (if subsetInDict (getMetaData env t x).2 df then
              ((getAllMetaDataLoop env df true rest (getMetaData env t x).1).1,
                (getMetaData env t x).2 ::
                  (getAllMetaDataLoop env df true rest (getMetaData env t x).1).2)
            else getAllMetaDataLoop env df true rest (getMetaData env t x).1)) =
          getAllMetaDataLoop env df true (rest.filter (fun y => y != x)) t
        rw [if_pos hcond]
        exact ih t ht df
      · have hfil : (x :: rest).filter (fun y => y != pid)
            = x :: rest.filter (fun y => y != pid) := by
          simp [List.filter_cons, hx]
        rw [hfil]
        show (if (true && (t.disabled_plugins.contains x || t.outdated_plugins.contains x))
            = true then getAllMetaDataLoop env df true rest t
          else
            (if subsetInDict (getMetaData env t x).2 df then
              ((getAllMetaDataLoop env df true rest (getMetaData env t x).1).1,
                (getMetaData env t x).2 ::
                  (getAllMetaDataLoop env df true rest (getMetaData env t x).1).2)
            else getAllMetaDataLoop env df true rest (getMetaData env t x).1)) =
          (if (true && (t.disabled_plugins.contains x || t.outdated_plugins.contains x))
            = true then getAllMetaDataLoop env df true (rest.filter (fun y => y != pid)) t
          else
            (if subsetInDict (getMetaData env t x).2 df then
              ((getAllMetaDataLoop env df true (rest.filter (fun y => y != pid))
                  (getMetaData env t x).1).1,
                (getMetaData env t x).2 ::
                  (getAllMetaDataLoop env df true (rest.filter (fun y => y != pid))
                    (getMetaData env t x).1).2)
            else getAllMetaDataLoop env df true (rest.filter (fun y => y != pid))
              (getMetaData env t x).1))
        have ht' : (getMetaData env t x).1.outdated_plugins.contains pid = true := by
          rw [getMetaData_outdated]
          exact ht
        rw [ih t ht df, ih (getMetaData env t x).1 ht' df]
  refine ⟨hA, by rw [e_gm], ?_, by rw [e_loop], by rw [e_loop], by rw [e_loop], hD⟩
  rw [e_gm]
  exact hmeta

/-- An environment whose only plugin `p` has a descriptor without a
`version` field. -/
def envC5 : Env :=
  { envBase with
    locate := fun _ => some "plugins",
    moduleMetaData := fun _ => some [],
    pluginJsonText := fun _ => some (some (.dict [("name", .str "x")])),
    installedPluginIds := ["p"] }

/-- Witness for C5 at a concrete version-less descriptor. -/
theorem claim_C5_witness :
    alistContains [("name", PyVal.str "x")] "version" = false ∧
    state0.api_version.major ≠ 0 ∧
    (parsePluginInfo envC5 "p" (some (.dict [("name", PyVal.str "x")])) [] =
       Except.error (PluginErr.invalidMetaData "p") ∧
     (getMetaData envC5 state0 "p").2 = [] ∧
     (loadPluginsLoop envC5 none ["p"] state0).1.outdated_plugins =
       state0.outdated_plugins ++ ["p"]) := by
  have h := claim_C5 envC5 state0 "p" "plugins" [("name", PyVal.str "x")] [] rfl rfl rfl rfl
    rfl rfl rfl rfl rfl rfl rfl (by decide)
  exact ⟨rfl, by decide, h.1, h.2.1, h.2.2.2.1⟩

end UM
